import Mathlib

/-!
Verification of the Missing-Object-Detection core against its code.

Shallow embedding of `src/trackers/deep_sort_tracker.py` (KalmanTracker,
DeepSORTTracker) and `src/engine/baseline_memory.py` (BaselineMemory).
Python floats are idealised as exact rationals; Python dicts are modelled
as insertion-ordered association lists; the fallible float division inside
`_calculate_iou` (which raises ZeroDivisionError in Python) is modelled by
an `Option` result; `print`-based status reports are modelled as explicit
event values returned by the update functions.
-/

/-- Axis-aligned bounding box [x1, y1, x2, y2], from the `bbox` lists used
throughout the source. -/
structure Box where
  x1 : ℚ
  y1 : ℚ
  x2 : ℚ
  y2 : ℚ
deriving DecidableEq, Repr

/-- A detection as supplied to `DeepSORTTracker.update`:
`{bbox, class_id, confidence}`. -/
structure Detection where
  bbox : Box
  class_id : Nat
  confidence : ℚ
deriving DecidableEq, Repr

instance : Inhabited Detection := ⟨⟨⟨0, 0, 0, 0⟩, 0, 0⟩⟩

/-- Embedding of `DeepSORTTracker._calculate_iou` (deep_sort_tracker.py
lines 208-236).  The Python body computes
`interArea / float(boxAArea + boxBArea - interArea)` with no guard, so a
zero denominator raises ZeroDivisionError; that failure is modelled as
`none`. -/
def calculate_iou (boxA boxB : Box) : Option ℚ :=
  let xA := max boxA.x1 boxB.x1
  let yA := max boxA.y1 boxB.y1
  let xB := min boxA.x2 boxB.x2
  let yB := min boxA.y2 boxB.y2
  let interArea := max 0 (xB - xA) * max 0 (yB - yA)
  let boxAArea := (boxA.x2 - boxA.x1) * (boxA.y2 - boxA.y1)
  let boxBArea := (boxB.x2 - boxB.x1) * (boxB.y2 - boxB.y1)
  let denom := boxAArea + boxBArea - interArea
  if denom = 0 then none else some (interArea / denom)

/-- Area of a box as the source computes it: `(x2 - x1) * (y2 - y1)`. -/
def boxArea (b : Box) : ℚ := (b.x2 - b.x1) * (b.y2 - b.y1)

/-- A box has nonnegative side lengths (the spec's input contract is the
strict `x1 < x2`, `y1 < y2`; the nonneg form also admits degenerate boxes). -/
def boxWellFormed (b : Box) : Prop := b.x1 ≤ b.x2 ∧ b.y1 ≤ b.y2

instance (b : Box) : Decidable (boxWellFormed b) := by
  unfold boxWellFormed; infer_instance

/-- C2, counterexample: `_calculate_iou` applied to two zero-area boxes has
denominator `boxAArea + boxBArea - interArea = 0` and divides by zero
(a Python ZeroDivisionError, modelled as `none`); the computation is not
total and does not yield 0 there. -/
theorem calculate_iou_two_zero_area_boxes_fails :
    calculate_iou ⟨0, 0, 0, 0⟩ ⟨0, 0, 0, 0⟩ = none := by
  norm_num [calculate_iou]

/-- C2 as amended: for boxes with nonnegative side lengths, provided at
least one box has positive area, the IoU computation succeeds (no division
by zero), the result lies in [0,1], boxes with non-positive overlap in
either axis yield 0, and a zero-area box yields 0.  Only the
both-boxes-zero-area case divides by zero. -/
theorem calculate_iou_defined_and_bounded (boxA boxB : Box)
    (hA : boxWellFormed boxA) (hB : boxWellFormed boxB)
    (hpos : 0 < boxArea boxA ∨ 0 < boxArea boxB) :
    ∃ r, calculate_iou boxA boxB = some r ∧ 0 ≤ r ∧ r ≤ 1 ∧
      ((min boxA.x2 boxB.x2 - max boxA.x1 boxB.x1 ≤ 0 ∨
        min boxA.y2 boxB.y2 - max boxA.y1 boxB.y1 ≤ 0) → r = 0) ∧
      ((boxArea boxA = 0 ∨ boxArea boxB = 0) → r = 0) := by
  obtain ⟨hax, hay⟩ := hA
  obtain ⟨hbx, hby⟩ := hB
  simp only [boxArea] at hpos ⊢
  set iw := max 0 (min boxA.x2 boxB.x2 - max boxA.x1 boxB.x1) with hiw_def
  set ih := max 0 (min boxA.y2 boxB.y2 - max boxA.y1 boxB.y1) with hih_def
  have hiw0 : (0:ℚ) ≤ iw := le_max_left 0 _
  have hih0 : (0:ℚ) ≤ ih := le_max_left 0 _
  have hminxA : min boxA.x2 boxB.x2 ≤ boxA.x2 := min_le_left _ _
  have hminxB : min boxA.x2 boxB.x2 ≤ boxB.x2 := min_le_right _ _
  have hmaxxA : boxA.x1 ≤ max boxA.x1 boxB.x1 := le_max_left _ _
  have hmaxxB : boxB.x1 ≤ max boxA.x1 boxB.x1 := le_max_right _ _
  have hminyA : min boxA.y2 boxB.y2 ≤ boxA.y2 := min_le_left _ _
  have hminyB : min boxA.y2 boxB.y2 ≤ boxB.y2 := min_le_right _ _
  have hmaxyA : boxA.y1 ≤ max boxA.y1 boxB.y1 := le_max_left _ _
  have hmaxyB : boxB.y1 ≤ max boxA.y1 boxB.y1 := le_max_right _ _
  have hiwA : iw ≤ boxA.x2 - boxA.x1 := max_le (by linarith) (by linarith)
  have hiwB : iw ≤ boxB.x2 - boxB.x1 := max_le (by linarith) (by linarith)
  have hihA : ih ≤ boxA.y2 - boxA.y1 := max_le (by linarith) (by linarith)
  have hihB : ih ≤ boxB.y2 - boxB.y1 := max_le (by linarith) (by linarith)
  have hinterA : iw * ih ≤ (boxA.x2 - boxA.x1) * (boxA.y2 - boxA.y1) :=
    mul_le_mul hiwA hihA hih0 (by linarith)
  have hinterB : iw * ih ≤ (boxB.x2 - boxB.x1) * (boxB.y2 - boxB.y1) :=
    mul_le_mul hiwB hihB hih0 (by linarith)
  have hinter0 : 0 ≤ iw * ih := mul_nonneg hiw0 hih0
  have hdenpos : 0 < (boxA.x2 - boxA.x1) * (boxA.y2 - boxA.y1) +
      (boxB.x2 - boxB.x1) * (boxB.y2 - boxB.y1) - iw * ih := by
    rcases hpos with h | h
    · linarith
    · linarith
  refine ⟨iw * ih / ((boxA.x2 - boxA.x1) * (boxA.y2 - boxA.y1) +
      (boxB.x2 - boxB.x1) * (boxB.y2 - boxB.y1) - iw * ih), ?_, ?_, ?_, ?_, ?_⟩
  · simp only [calculate_iou]
    rw [← hiw_def, ← hih_def, if_neg (by exact hdenpos.ne')]
  · exact div_nonneg hinter0 hdenpos.le
  · rw [div_le_one hdenpos]
    linarith
  · rintro (h | h)
    · have : iw = 0 := max_eq_left h
      rw [this, zero_mul, zero_div]
    · have : ih = 0 := max_eq_left h
      rw [this, mul_zero, zero_div]
  · intro h
    have hz : iw * ih = 0 := by
      rcases h with h | h
      · have := hinterA
        rw [h] at this
        linarith
      · have := hinterB
        rw [h] at this
        linarith
    rw [hz, zero_div]

/-- Witness for `calculate_iou_defined_and_bounded` at the concrete boxes
(0,0,2,2) and (1,1,3,3). -/
theorem calculate_iou_defined_and_bounded_witness :
    (boxWellFormed ⟨0, 0, 2, 2⟩ ∧ boxWellFormed ⟨1, 1, 3, 3⟩ ∧
      (0 < boxArea ⟨0, 0, 2, 2⟩ ∨ 0 < boxArea ⟨1, 1, 3, 3⟩)) ∧
    (∃ r, calculate_iou ⟨0, 0, 2, 2⟩ ⟨1, 1, 3, 3⟩ = some r ∧ 0 ≤ r ∧ r ≤ 1 ∧
      ((min (⟨0, 0, 2, 2⟩ : Box).x2 (⟨1, 1, 3, 3⟩ : Box).x2 -
          max (⟨0, 0, 2, 2⟩ : Box).x1 (⟨1, 1, 3, 3⟩ : Box).x1 ≤ 0 ∨
        min (⟨0, 0, 2, 2⟩ : Box).y2 (⟨1, 1, 3, 3⟩ : Box).y2 -
          max (⟨0, 0, 2, 2⟩ : Box).y1 (⟨1, 1, 3, 3⟩ : Box).y1 ≤ 0) → r = 0) ∧
      ((boxArea ⟨0, 0, 2, 2⟩ = 0 ∨ boxArea ⟨1, 1, 3, 3⟩ = 0) → r = 0)) :=
  ⟨⟨by decide, by decide, by norm_num [boxArea]⟩,
    calculate_iou_defined_and_bounded ⟨0, 0, 2, 2⟩ ⟨1, 1, 3, 3⟩
      (by decide) (by decide) (by norm_num [boxArea])⟩

/-! ## KalmanTracker (deep_sort_tracker.py lines 5-186)

The cv2.KalmanFilter configured in `KalmanTracker.__init__` is embedded
over exact rationals (float32 idealised as ℚ): an 8-vector posterior state
and an 8x8 posterior error covariance, with OpenCV's predict/correct
equations for the concrete matrices the source installs. -/

/-- The constant-velocity `transitionMatrix` literal from `__init__`. -/
def transitionMatrix : Matrix (Fin 8) (Fin 8) ℚ :=
  Matrix.of
    ![![1, 0, 0, 0, 1, 0, 0, 0],
      ![0, 1, 0, 0, 0, 1, 0, 0],
      ![0, 0, 1, 0, 0, 0, 1, 0],
      ![0, 0, 0, 1, 0, 0, 0, 1],
      ![0, 0, 0, 0, 1, 0, 0, 0],
      ![0, 0, 0, 0, 0, 1, 0, 0],
      ![0, 0, 0, 0, 0, 0, 1, 0],
      ![0, 0, 0, 0, 0, 0, 0, 1]]

/-- The `measurementMatrix` literal from `__init__` (picks cx, cy, w, h). -/
def measurementMatrix : Matrix (Fin 4) (Fin 8) ℚ :=
  Matrix.of
    ![![1, 0, 0, 0, 0, 0, 0, 0],
      ![0, 1, 0, 0, 0, 0, 0, 0],
      ![0, 0, 1, 0, 0, 0, 0, 0],
      ![0, 0, 0, 1, 0, 0, 0, 0]]

/-- `processNoiseCov = eye(8) * 0.03`. -/
def processNoiseCov : Matrix (Fin 8) (Fin 8) ℚ := (3 / 100 : ℚ) • 1

/-- `measurementNoiseCov = eye(4) * 1.0`. -/
def measurementNoiseCov : Matrix (Fin 4) (Fin 4) ℚ := 1

/-- `errorCovPost = eye(8) * 10.0` at construction. -/
def initErrorCov : Matrix (Fin 8) (Fin 8) ℚ := (10 : ℚ) • 1

/-- Posterior state of the per-track Kalman filter. -/
structure KalmanState where
  x : Fin 8 → ℚ
  P : Matrix (Fin 8) (Fin 8) ℚ

/-- Inverse of the 4x4 innovation covariance, used inside the OpenCV gain. -/
def mat4Inv (S : Matrix (Fin 4) (Fin 4) ℚ) : Matrix (Fin 4) (Fin 4) ℚ :=
  S.det⁻¹ • S.adjugate

/-- Covariance half of the OpenCV predict step: A·P·Aᵀ + Q. -/
def predCov (P : Matrix (Fin 8) (Fin 8) ℚ) : Matrix (Fin 8) (Fin 8) ℚ :=
  transitionMatrix * P * transitionMatrix.transpose + processNoiseCov

/-- OpenCV gain K = P·Hᵀ·(H·P·Hᵀ + R)⁻¹. -/
def kalmanGain (P : Matrix (Fin 8) (Fin 8) ℚ) : Matrix (Fin 8) (Fin 4) ℚ :=
  P * measurementMatrix.transpose *
    mat4Inv (measurementMatrix * P * measurementMatrix.transpose +
      measurementNoiseCov)

/-- Covariance half of the OpenCV correct step: (I − K·H)·P. -/
def corrCov (P : Matrix (Fin 8) (Fin 8) ℚ) : Matrix (Fin 8) (Fin 8) ℚ :=
  (1 - kalmanGain P * measurementMatrix) * P

/-- OpenCV `KalmanFilter.predict`: statePre = A·statePost and
errorCovPre = A·P·Aᵀ + Q, both copied back into the posterior slots. -/
def kalmanPredict (s : KalmanState) : KalmanState :=
  ⟨transitionMatrix.mulVec s.x, predCov s.P⟩

/-- OpenCV `KalmanFilter.correct` with measurement z:
statePost = x + K·(z − H·x), errorCovPost = (I − K·H)·P. -/
def kalmanCorrect (s : KalmanState) (z : Fin 4 → ℚ) : KalmanState :=
  ⟨s.x + (kalmanGain s.P).mulVec (z - measurementMatrix.mulVec s.x),
   corrCov s.P⟩

/-- `KalmanTracker._bbox_to_xywh`: center/extent form of a box. -/
def bbox_to_xywh (b : Box) : Fin 4 → ℚ :=
  let w := b.x2 - b.x1
  let h := b.y2 - b.y1
  ![b.x1 + w / 2, b.y1 + h / 2, w, h]

/-- `KalmanTracker._xywh_to_bbox`: reconstruct the box from center/extents. -/
def xywh_to_bbox (x y w h : ℚ) : Box :=
  ⟨x - w / 2, y - h / 2, x + w / 2, y + h / 2⟩

/-- A track as held by the registry (`KalmanTracker` object state).
`max_age` is stored per track by `__init__` but never read again;
counters are the Python ints `age` and `time_since_update`. -/
structure KalmanTracker where
  track_id : Nat
  class_id : Nat
  confidence : ℚ
  max_age : Int
  age : Nat
  time_since_update : Nat
  kf : KalmanState
  history : List Box

/-- `KalmanTracker.__init__`: age 0, time_since_update 0, state
(cx, cy, w, h, 0, 0, 0, 0), covariance 10·I, history [bbox]. -/
def KalmanTracker.init (bbox : Box) (track_id class_id : Nat) (confidence : ℚ)
    (max_age : Int) : KalmanTracker :=
  let q := bbox_to_xywh bbox
  ⟨track_id, class_id, confidence, max_age, 0, 0,
   ⟨![q 0, q 1, q 2, q 3, 0, 0, 0, 0], initErrorCov⟩, [bbox]⟩

/-- `KalmanTracker.predict` (lines 102-122): when the track went unmatched
last step (`time_since_update > 0`) both counters are incremented, then the
filter predicts.  The returned predicted bbox is never used by a caller, so
only the state change is modelled. -/
def KalmanTracker.predict (t : KalmanTracker) : KalmanTracker :=
  let t1 := if 0 < t.time_since_update then
      { t with age := t.age + 1, time_since_update := t.time_since_update + 1 }
    else t
  { t1 with kf := kalmanPredict t1.kf }

/-- `KalmanTracker.update` (lines 124-164): reset `time_since_update`,
increment age, take the detection's confidence and class, correct the
filter with the observed box, append the raw box to the bounded history
(cap 5, FIFO).  The returned corrected bbox is never used by a caller. -/
def KalmanTracker.updateWith (t : KalmanTracker) (det : Detection) : KalmanTracker :=
  let hist := t.history ++ [det.bbox]
  { t with
    time_since_update := 0
    age := t.age + 1
    confidence := det.confidence
    class_id := det.class_id
    kf := kalmanCorrect t.kf (bbox_to_xywh det.bbox)
    history := if 5 < hist.length then hist.tail else hist }

/-- `KalmanTracker.get_state` (lines 166-186): output snapshot. -/
structure TrackedObject where
  id : Nat
  bbox : Box
  confidence : ℚ
  class_id : Nat
  age : Nat
  time_since_update : Nat
deriving DecidableEq, Repr

def KalmanTracker.get_state (t : KalmanTracker) : TrackedObject :=
  ⟨t.track_id, xywh_to_bbox (t.kf.x 0) (t.kf.x 1) (t.kf.x 2) (t.kf.x 3),
   t.confidence, t.class_id, t.age, t.time_since_update⟩

/-! ## DeepSORTTracker (deep_sort_tracker.py lines 189-343) -/

/-- Track-manager state.  `__init__` reads `max_age`, `min_hits`,
`iou_threshold` from the config dict with `.get` and performs no
validation whatsoever, so arbitrary (also negative / out-of-range) values
are stored as given. -/
structure DeepSORTTracker where
  max_age : Int
  min_hits : Int
  iou_threshold : ℚ
  trackers : List KalmanTracker
  next_id : Nat
  frame_count : Nat

/-- `DeepSORTTracker.__init__` (lines 193-206): store the three config
values unchanged; empty registry, next_id 1, frame_count 0. -/
def DeepSORTTracker.init (max_age min_hits : Int) (iou_threshold : ℚ) :
    DeepSORTTracker :=
  ⟨max_age, min_hits, iou_threshold, [], 1, 0⟩

/-- The inner loop of `_assign_detections_to_trackers` (lines 264-273):
for one detection row of the IoU matrix, scan the still-unmatched tracker
indices in order, keeping the first index whose IoU strictly exceeds the
best so far (initialised to the threshold). -/
def bestStep (row : List ℚ) (best : ℚ × Option Nat) (t : Nat) : ℚ × Option Nat :=
  if best.1 < row.getD t 0 then (row.getD t 0, some t) else best

def bestMatch (row : List ℚ) (unmatched : List Nat) (thr : ℚ) : Option Nat :=
  (unmatched.foldl (bestStep row) (thr, (none : Option Nat))).2

/-- The per-detection greedy loop of `_assign_detections_to_trackers`
(lines 260-278): detections in increasing index order; a matched tracker
index is removed from `unmatched`; a detection with no strict-over-threshold
tracker joins `unmatched_detections`. -/
def assignLoop (thr : ℚ) : List (List ℚ) → Nat → List Nat →
    List (Nat × Nat) × List Nat × List Nat
  | [], _, unmatched => ([], [], unmatched)
  | row :: rest, d, unmatched =>
    match bestMatch row unmatched thr with
    | some t =>
      let r := assignLoop thr rest (d + 1) (unmatched.erase t)
      ((d, t) :: r.1, r.2.1, r.2.2)
    | none =>
      let r := assignLoop thr rest (d + 1) unmatched
      (r.1, d :: r.2.1, r.2.2)

/-- Element-wise fallible map, mirroring the Python loops that fill
`iou_matrix` entry by entry (any ZeroDivisionError aborts the call). -/
def optionMap {α β : Type} (f : α → Option β) : List α → Option (List β)
  | [] => some []
  | a :: l => do
    let b ← f a
    let r ← optionMap f l
    pure (b :: r)

/-- `_assign_detections_to_trackers` (lines 238-280).  With no trackers or
no detections it returns everything unmatched; otherwise it builds the IoU
matrix (each entry a fallible `_calculate_iou` call — a ZeroDivisionError
there aborts the update, hence the `Option`) and runs the greedy loop. -/
def assign_detections_to_trackers (detections : List Detection)
    (trackers : List KalmanTracker) (thr : ℚ) :
    Option (List (Nat × Nat) × List Nat × List Nat) :=
  if trackers.isEmpty || detections.isEmpty then
    some ([], List.range detections.length, List.range trackers.length)
  else do
    let rows ← optionMap (fun det =>
      optionMap (fun trk => calculate_iou det.bbox trk.get_state.bbox) trackers) detections
    pure (assignLoop thr rows 0 (List.range trackers.length))

/-- `DeepSORTTracker.update` (lines 282-343), one frame:
predict every track, keep the active ones (`time_since_update ≤ max_age`),
greedily match, correct matched tracks, bump unmatched tracks' counters,
spawn a fresh track per unmatched detection, drop dead tracks, and emit
snapshots of tracks with `age ≥ min_hits` and `time_since_update ≤ 1`. -/
def DeepSORTTracker.update (s : DeepSORTTracker) (detections : List Detection) :
    Option (DeepSORTTracker × List TrackedObject) := do
  let predicted := s.trackers.map KalmanTracker.predict
  let active := predicted.filter
    (fun trk => decide ((trk.time_since_update : Int) ≤ s.max_age))
  let (matched, unmatched_detections, unmatched_trackers) ←
    assign_detections_to_trackers detections active s.iou_threshold
  let afterMatch := matched.foldl
    (fun acc dt =>
      acc.modify (fun trk => trk.updateWith (detections.getD dt.1 default)) dt.2)
    active
  let afterBump := unmatched_trackers.foldl
    (fun acc t => acc.modify
      (fun trk =>
        { trk with
          age := trk.age + 1
          time_since_update := trk.time_since_update + 1 }) t)
    afterMatch
  let withNew := unmatched_detections.foldl
    (fun acc d =>
      let det := detections.getD d default
      (acc.1 ++ [KalmanTracker.init det.bbox acc.2 det.class_id det.confidence s.max_age],
       acc.2 + 1))
    (afterBump, s.next_id)
  let trackers1 := withNew.1.filter
    (fun trk => decide ((trk.time_since_update : Int) ≤ s.max_age))
  let out := (trackers1.filter
    (fun trk => decide (s.min_hits ≤ (trk.age : Int)) && decide (trk.time_since_update ≤ 1))).map
    KalmanTracker.get_state
  let s1 :=
    { s with
      trackers := trackers1
      next_id := withNew.2
      frame_count := s.frame_count + 1 }
  pure (s1, out)

instance : Inhabited KalmanState := ⟨⟨![0, 0, 0, 0, 0, 0, 0, 0], 1⟩⟩

instance : Inhabited KalmanTracker :=
  ⟨KalmanTracker.init ⟨0, 0, 0, 0⟩ 0 0 0 0⟩

/-- A freshly constructed track reports exactly the box it was built from:
the two coordinate conversions are mutually inverse. -/
theorem get_state_init (b : Box) (i c : Nat) (cf : ℚ) (ma : Int) :
    (KalmanTracker.init b i c cf ma).get_state = ⟨i, b, cf, c, 0, 0⟩ := by
  obtain ⟨a1, a2, a3, a4⟩ := b
  simp [KalmanTracker.init, KalmanTracker.get_state, bbox_to_xywh, xywh_to_bbox,
    Box.mk.injEq]
  repeat' apply And.intro
  all_goals ring

/-- Invariant of the best-so-far fold inside `bestMatch`: the running best
never drops below the threshold, and a selected index lies in the scanned
set with its IoU recorded as the running best, strictly above threshold. -/
theorem bestStep_fold_inv (row : List ℚ) (thr : ℚ) (U : List Nat) :
    ∀ (l : List Nat) (acc : ℚ × Option Nat), (∀ a ∈ l, a ∈ U) →
      thr ≤ acc.1 →
      (∀ t0, acc.2 = some t0 → t0 ∈ U ∧ thr < acc.1 ∧ acc.1 = row.getD t0 0) →
      thr ≤ (l.foldl (bestStep row) acc).1 ∧
      (∀ t0, (l.foldl (bestStep row) acc).2 = some t0 →
        t0 ∈ U ∧ thr < (l.foldl (bestStep row) acc).1 ∧
        (l.foldl (bestStep row) acc).1 = row.getD t0 0) := by
  intro l
  induction l with
  | nil => intro acc _ h1 h2; exact ⟨h1, h2⟩
  | cons a l ih =>
    intro acc hsub h1 h2
    simp only [List.foldl_cons]
    apply ih
    · intro x hx; exact hsub x (List.mem_cons_of_mem a hx)
    · unfold bestStep
      split
      · next hlt => exact le_of_lt (lt_of_le_of_lt h1 hlt)
      · exact h1
    · unfold bestStep
      split
      · next hlt =>
        intro t0 ht0
        simp only [Option.some.injEq] at ht0
        subst ht0
        exact ⟨hsub a (List.mem_cons_self a l), lt_of_le_of_lt h1 hlt, rfl⟩
      · exact h2

/-- Soundness of a single greedy row scan: a selected tracker index is one
of the still-unmatched indices and its IoU entry strictly exceeds the
threshold. -/
theorem bestMatch_sound (row : List ℚ) (unmatched : List Nat) (thr : ℚ) (t : Nat)
    (h : bestMatch row unmatched thr = some t) :
    t ∈ unmatched ∧ thr < row.getD t 0 := by
  unfold bestMatch at h
  have := bestStep_fold_inv row thr unmatched unmatched (thr, none)
    (fun a ha => ha) le_rfl (by intro t0 ht0; simp at ht0)
  obtain ⟨-, h2⟩ := this
  obtain ⟨hm, hlt, heq⟩ := h2 t h
  exact ⟨hm, heq ▸ hlt⟩

/-- Soundness of the greedy assignment loop: matched detection indices are
distinct and within range, matched tracker indices are distinct and drawn
from the unmatched pool, and every committed pair's IoU-matrix entry
strictly exceeds the threshold. -/
theorem assignLoop_sound (thr : ℚ) :
    ∀ (rows : List (List ℚ)) (d : Nat) (unmatched : List Nat), unmatched.Nodup →
      (∀ p ∈ (assignLoop thr rows d unmatched).1,
        d ≤ p.1 ∧ p.1 < d + rows.length ∧ p.2 ∈ unmatched ∧
        thr < (rows.getD (p.1 - d) []).getD p.2 0) ∧
      ((assignLoop thr rows d unmatched).1.map Prod.fst).Nodup ∧
      ((assignLoop thr rows d unmatched).1.map Prod.snd).Nodup := by
  intro rows
  induction rows with
  | nil => intro d unmatched _; simp [assignLoop]
  | cons row rest ih =>
    intro d unmatched hnd
    cases hbm : bestMatch row unmatched thr with
    | some t =>
      obtain ⟨htU, htiou⟩ := bestMatch_sound row unmatched thr t hbm
      obtain ⟨ih1, ih2, ih3⟩ := ih (d + 1) (unmatched.erase t) (hnd.erase t)
      have hE : assignLoop thr (row :: rest) d unmatched =
          ((d, t) :: (assignLoop thr rest (d + 1) (unmatched.erase t)).1,
           (assignLoop thr rest (d + 1) (unmatched.erase t)).2.1,
           (assignLoop thr rest (d + 1) (unmatched.erase t)).2.2) := by
        simp only [assignLoop, hbm]
      rw [hE]
      refine ⟨?_, ?_, ?_⟩
      · intro p hp
        rcases List.mem_cons.mp hp with rfl | hp'
        · refine ⟨le_rfl, ?_, htU, ?_⟩
          · show d < d + (row :: rest).length
            rw [List.length_cons]
            omega
          · simpa using htiou
        · obtain ⟨h1, h2, h3, h4⟩ := ih1 p hp'
          refine ⟨by omega, by rw [List.length_cons]; omega, List.mem_of_mem_erase h3, ?_⟩
          have hd : p.1 - d = (p.1 - (d + 1)) + 1 := by omega
          rw [hd, List.getD_cons_succ]
          exact h4
      · rw [List.map_cons, List.nodup_cons]
        refine ⟨?_, ih2⟩
        intro hmem
        obtain ⟨p, hp, hpd⟩ := List.mem_map.mp hmem
        obtain ⟨h1, -, -, -⟩ := ih1 p hp
        omega
      · rw [List.map_cons, List.nodup_cons]
        refine ⟨?_, ih3⟩
        intro hmem
        obtain ⟨p, hp, hpt⟩ := List.mem_map.mp hmem
        obtain ⟨-, -, h3, -⟩ := ih1 p hp
        rw [hpt] at h3
        exact hnd.not_mem_erase h3
    | none =>
      obtain ⟨ih1, ih2, ih3⟩ := ih (d + 1) unmatched hnd
      have hE : assignLoop thr (row :: rest) d unmatched =
          ((assignLoop thr rest (d + 1) unmatched).1,
           d :: (assignLoop thr rest (d + 1) unmatched).2.1,
           (assignLoop thr rest (d + 1) unmatched).2.2) := by
        simp only [assignLoop, hbm]
      rw [hE]
      refine ⟨?_, ih2, ih3⟩
      intro p hp
      obtain ⟨h1, h2, h3, h4⟩ := ih1 p hp
      refine ⟨by omega, by rw [List.length_cons]; omega, h3, ?_⟩
      have hd : p.1 - d = (p.1 - (d + 1)) + 1 := by omega
      rw [hd, List.getD_cons_succ]
      exact h4

/-- `optionMap` succeeding yields a list of the same length whose entries
come from successful applications of `f`. -/
theorem optionMap_getD {α β : Type} (f : α → Option β) (a0 : α) (b0 : β) :
    ∀ (l : List α) (r : List β), optionMap f l = some r →
      r.length = l.length ∧ ∀ i, i < l.length → f (l.getD i a0) = some (r.getD i b0) := by
  intro l
  induction l with
  | nil =>
    intro r h
    simp [optionMap] at h
    subst h
    refine ⟨rfl, ?_⟩
    intro i hi
    simp at hi
  | cons a l ih =>
    intro r h
    simp only [optionMap, Option.bind_eq_bind, Option.bind_eq_some] at h
    obtain ⟨b, hb, r', hr', hrr⟩ := h
    simp only [pure, Option.some.injEq] at hrr
    subst hrr
    obtain ⟨hlen, hget⟩ := ih r' hr'
    refine ⟨by simp [hlen], ?_⟩
    intro i hi
    cases i with
    | zero => simpa using hb
    | succ j =>
      simp only [List.getD_cons_succ]
      exact hget j (by simpa using hi)

/-- C5 as amended: the assignment is a per-detection greedy scan, in
increasing detection-index order, each detection taking the lowest-index
still-unmatched track of maximal IoU strictly above `iou_threshold`
(equality with the threshold is rejected); consequently no detection and no
track is ever matched twice in one call, and every committed match has IoU
strictly greater than `iou_threshold`. -/
theorem assign_greedy_properties (detections : List Detection)
    (trackers : List KalmanTracker) (thr : ℚ)
    (m : List (Nat × Nat)) (ud ut : List Nat)
    (h : assign_detections_to_trackers detections trackers thr = some (m, ud, ut)) :
    (m.map Prod.fst).Nodup ∧ (m.map Prod.snd).Nodup ∧
    ∀ p ∈ m, p.1 < detections.length ∧ p.2 < trackers.length ∧
      ∃ r, calculate_iou (detections.getD p.1 default).bbox
        ((trackers.getD p.2 default).get_state).bbox = some r ∧ thr < r := by
  unfold assign_detections_to_trackers at h
  by_cases hemp : trackers.isEmpty || detections.isEmpty
  · rw [if_pos hemp] at h
    simp only [Option.some.injEq, Prod.mk.injEq] at h
    obtain ⟨hm, -⟩ := h
    subst hm
    simp
  · rw [if_neg hemp] at h
    simp only [Option.bind_eq_bind, Option.bind_eq_some, Option.some.injEq, pure] at h
    obtain ⟨rows, hrows, hloop⟩ := h
    obtain ⟨hlen, houter⟩ := optionMap_getD _ default ([] : List ℚ) detections rows hrows
    obtain ⟨hp1, hnd1, hnd2⟩ :=
      assignLoop_sound thr rows 0 (List.range trackers.length)
        (List.nodup_range trackers.length)
    rw [hloop] at hp1 hnd1 hnd2
    refine ⟨hnd1, hnd2, ?_⟩
    intro p hp
    obtain ⟨-, hlt, hmem, hthr⟩ := hp1 p hp
    have hp1lt : p.1 < detections.length := by rw [← hlen]; omega
    have hp2lt : p.2 < trackers.length := List.mem_range.mp hmem
    have hinner := houter p.1 hp1lt
    obtain ⟨-, hinner2⟩ :=
      optionMap_getD _ default (0 : ℚ) trackers (rows.getD p.1 []) hinner
    refine ⟨hp1lt, hp2lt, (rows.getD p.1 []).getD p.2 0, hinner2 p.2 hp2lt, ?_⟩
    simpa using hthr

/-- C5, counterexample: one detection with box (0,0,3,1) against one track
holding box (0,0,10,1) has IoU exactly 3/10; with `iou_threshold = 3/10`
the claim says the pair is committed ("meets or exceeds"), but the source
compares with a strict `>` against the threshold, so the greedy loop
commits nothing and both sides stay unmatched. -/
theorem assign_threshold_equality_rejected :
    calculate_iou ⟨0, 0, 3, 1⟩
        ((KalmanTracker.init ⟨0, 0, 10, 1⟩ 1 0 (1 / 2) 30).get_state).bbox
      = some (3 / 10) ∧
    assign_detections_to_trackers [⟨⟨0, 0, 3, 1⟩, 0, 1⟩]
      [KalmanTracker.init ⟨0, 0, 10, 1⟩ 1 0 (1 / 2) 30] (3 / 10)
      = some ([], [0], [0]) := by
  have hiou : calculate_iou ⟨0, 0, 3, 1⟩
      ((KalmanTracker.init ⟨0, 0, 10, 1⟩ 1 0 (1 / 2) 30).get_state).bbox
      = some (3 / 10) := by
    rw [get_state_init]
    norm_num [calculate_iou]
  refine ⟨hiou, ?_⟩
  norm_num [assign_detections_to_trackers, optionMap, hiou, assignLoop, bestMatch,
    bestStep, List.range_succ]

/-- Witness for `assign_greedy_properties`: the same pair with threshold
1/4 < 3/10 is committed, and the committed match satisfies all the
guarantees. -/
theorem assign_greedy_properties_witness :
    assign_detections_to_trackers [⟨⟨0, 0, 3, 1⟩, 0, 1⟩]
      [KalmanTracker.init ⟨0, 0, 10, 1⟩ 1 0 (1 / 2) 30] (1 / 4)
      = some ([(0, 0)], [], []) ∧
    (([((0 : Nat), (0 : Nat))].map Prod.fst).Nodup ∧
     ([((0 : Nat), (0 : Nat))].map Prod.snd).Nodup ∧
     ∀ p ∈ [((0 : Nat), (0 : Nat))],
       p.1 < ([⟨⟨0, 0, 3, 1⟩, 0, 1⟩] : List Detection).length ∧
       p.2 < ([KalmanTracker.init ⟨0, 0, 10, 1⟩ 1 0 (1 / 2) 30]).length ∧
       ∃ r, calculate_iou
           (([⟨⟨0, 0, 3, 1⟩, 0, 1⟩] : List Detection).getD p.1 default).bbox
           ((([KalmanTracker.init ⟨0, 0, 10, 1⟩ 1 0 (1 / 2) 30]).getD p.2
              default).get_state).bbox = some r ∧ (1 / 4 : ℚ) < r) := by
  have hiou : calculate_iou ⟨0, 0, 3, 1⟩
      ((KalmanTracker.init ⟨0, 0, 10, 1⟩ 1 0 (1 / 2) 30).get_state).bbox
      = some (3 / 10) := by
    rw [get_state_init]
    norm_num [calculate_iou]
  have h : assign_detections_to_trackers [⟨⟨0, 0, 3, 1⟩, 0, 1⟩]
      [KalmanTracker.init ⟨0, 0, 10, 1⟩ 1 0 (1 / 2) 30] (1 / 4)
      = some ([(0, 0)], [], []) := by
    norm_num [assign_detections_to_trackers, optionMap, hiou, assignLoop, bestMatch,
      bestStep, List.range_succ]
  exact ⟨h, assign_greedy_properties _ _ _ _ _ _ h⟩

/-! ## BaselineMemory (src/engine/baseline_memory.py)

Python dicts are modelled as insertion-ordered association lists keyed by
the object id (`aset` updates in place or appends, exactly like dict
assignment; `aerase` is `del`).  The `print` status reports are modelled
as `BMEvent` values collected by the update.  The wall-clock `timestamp`
recorded in the history entries is omitted (real time is outside the
model); no claim concerns it.  Python set differences are iterated here in
the insertion order of the minuend — set iteration order in CPython is
unspecified and affects only the relative ordering of entries for distinct
ids, which no claim concerns. -/

/-- One event per `print` call in baseline_memory.py. -/
inductive BMEvent where
  | baselineEstablished : Nat → BMEvent
  | missingConfirmed : Nat → BMEvent
  | reappeared : Nat → BMEvent
  | newConfirmed : Nat → BMEvent
deriving DecidableEq, Repr

def alookup {α : Type} : List (Nat × α) → Nat → Option α
  | [], _ => none
  | p :: l, k => if p.1 = k then some p.2 else alookup l k

def akeys {α : Type} (l : List (Nat × α)) : List Nat := l.map Prod.fst

/-- Dict assignment `d[k] = v`: replace in place, else append. -/
def aset {α : Type} (l : List (Nat × α)) (k : Nat) (v : α) : List (Nat × α) :=
  if (alookup l k).isSome then l.map (fun p => if p.1 = k then (k, v) else p)
  else l ++ [(k, v)]

/-- Dict deletion `del d[k]`. -/
def aerase {α : Type} (l : List (Nat × α)) (k : Nat) : List (Nat × α) :=
  l.filter (fun p => p.1 != k)

/-- One entry of the per-object history (frame index, bbox, confidence). -/
structure HistoryEntry where
  frame : Nat
  bbox : Box
  confidence : ℚ
deriving DecidableEq, Repr

/-- `BaselineMemory` state.  `__init__` reads the two thresholds from the
config dict with `.get` and performs no validation, so arbitrary values
are stored as given. -/
structure BaselineMemory where
  missing_frames_threshold : Int
  stability_frames : Int
  tracked_objects : List (Nat × TrackedObject)
  object_history : List (Nat × List HistoryEntry)
  missing_objects : List (Nat × TrackedObject × Nat)
  new_objects : List (Nat × TrackedObject × Nat)
  is_baseline_established : Bool
  frame_count : Nat

/-- `BaselineMemory.__init__` (lines 11-30). -/
def BaselineMemory.init (missing_object_frames stability_frames : Int) :
    BaselineMemory :=
  ⟨missing_object_frames, stability_frames, [], [], [], [], false, 0⟩

/-- `BaselineMemory.reset` (lines 32-44). -/
def BaselineMemory.reset (s : BaselineMemory) : BaselineMemory :=
  BaselineMemory.init s.missing_frames_threshold s.stability_frames

/-- Body of the first loop of `_update_missing_objects` (lines 123-139)
for one potentially-missing id: increment an existing entry (reporting
MISSING exactly when the counter lands on the threshold) or open a new
entry at count 1 copied from the reference data. -/
def missingStep (tracked : List (Nat × TrackedObject)) (thr : Int)
    (acc : List (Nat × TrackedObject × Nat) × List BMEvent) (obj_id : Nat) :
    List (Nat × TrackedObject × Nat) × List BMEvent :=
  match alookup acc.1 obj_id with
  | some mo =>
    let n := mo.2 + 1
    let evs := if thr ≤ (n : Int) then
        (if (n : Int) = thr then acc.2 ++ [BMEvent.missingConfirmed obj_id] else acc.2)
      else acc.2
    (aset acc.1 obj_id (mo.1, n), evs)
  | none =>
    match alookup tracked obj_id with
    | some od => (aset acc.1 obj_id (od, 1), acc.2)
    | none => acc

/-- `_update_missing_objects` (lines 115-150): the per-id loop, then
discarding (with a report) every bookkept-missing id present in the
current frame. -/
def update_missing_objects (missing : List (Nat × TrackedObject × Nat))
    (tracked : List (Nat × TrackedObject)) (thr : Int)
    (potentially_missing : List Nat) (current : List (Nat × TrackedObject)) :
    List (Nat × TrackedObject × Nat) × List BMEvent :=
  let r1 := potentially_missing.foldl (missingStep tracked thr) (missing, [])
  let reappeared := (akeys r1.1).filter (fun id => (alookup current id).isSome)
  (reappeared.foldl aerase r1.1, r1.2 ++ reappeared.map BMEvent.reappeared)

/-- Body of the first loop of `_update_new_objects` (lines 160-175) for one
potentially-new id.  (In the source the add branch indexes
`current_objects[obj_id]` directly; the id always comes from the current
frame, so the lookup never fails on reachable inputs.) -/
def newStep (current : List (Nat × TrackedObject)) (stab : Int)
    (acc : List (Nat × TrackedObject × Nat) × List BMEvent) (obj_id : Nat) :
    List (Nat × TrackedObject × Nat) × List BMEvent :=
  match alookup acc.1 obj_id with
  | some no =>
    let n := no.2 + 1
    let evs := if stab ≤ (n : Int) then
        (if (n : Int) = stab then acc.2 ++ [BMEvent.newConfirmed obj_id] else acc.2)
      else acc.2
    (aset acc.1 obj_id (no.1, n), evs)
  | none =>
    match alookup current obj_id with
    | some od => (aset acc.1 obj_id (od, 1), acc.2)
    | none => acc

/-- `_update_new_objects` (lines 152-185): the per-id loop, then eviction
of entries whose count exceeds `3 * stability_frames`. -/
def update_new_objects (new_objects : List (Nat × TrackedObject × Nat))
    (current : List (Nat × TrackedObject)) (stab : Int)
    (potentially_new : List Nat) :
    List (Nat × TrackedObject × Nat) × List BMEvent :=
  let r1 := potentially_new.foldl (newStep current stab) (new_objects, [])
  let expired := (r1.1.filter (fun p => decide (3 * stab < (p.2.2 : Int)))).map Prod.fst
  (expired.foldl aerase r1.1, r1.2)

/-- Append the current observation to an id's bounded history
(cap 30, FIFO eviction of the oldest entry), lines 93-103. -/
def histAppend (h : List (Nat × List HistoryEntry)) (id fc : Nat)
    (o : TrackedObject) : List (Nat × List HistoryEntry) :=
  let cur := (alookup h id).getD []
  let l := cur ++ [⟨fc, o.bbox, o.confidence⟩]
  aset h id (if 30 < l.length then l.tail else l)

/-- What one `BaselineMemory.update` call returns (lines 105-113), plus
the events it printed along the way. -/
structure BMOutput where
  missing_ids : List Nat
  new_ids : List Nat
  missing_objects_data : List (TrackedObject × Nat)
  new_objects_data : List (TrackedObject × Nat)
  events : List BMEvent
deriving DecidableEq, Repr

/-- `BaselineMemory.update` (lines 46-113), one frame. -/
def BaselineMemory.update (s : BaselineMemory)
    (tracked_objects : List TrackedObject) : BaselineMemory × BMOutput :=
  let fc := s.frame_count + 1
  let current := tracked_objects.foldl (fun acc o => aset acc o.id o) []
  let current_ids := akeys current
  let establishing :=
    !s.is_baseline_established && decide (s.stability_frames ≤ (fc : Int))
  let tracked0 := if establishing then current else s.tracked_objects
  let established := s.is_baseline_established || establishing
  let evB := if establishing then [BMEvent.baselineEstablished current.length] else []
  if established then
    let previous_ids := akeys tracked0
    let potentially_missing :=
      previous_ids.filter (fun id => !(alookup current id).isSome)
    let rm := update_missing_objects s.missing_objects tracked0
      s.missing_frames_threshold potentially_missing current
    let potentially_new :=
      current_ids.filter (fun id => !(alookup tracked0 id).isSome)
    let rn := update_new_objects s.new_objects current s.stability_frames
      potentially_new
    let merged := current.foldl
      (fun acc p => (aset acc.1 p.1 p.2, histAppend acc.2 p.1 fc p.2))
      (tracked0, s.object_history)
    (⟨s.missing_frames_threshold, s.stability_frames, merged.1, merged.2,
      rm.1, rn.1, true, fc⟩,
     ⟨akeys rm.1, akeys rn.1, rm.1.map Prod.snd, rn.1.map Prod.snd,
      evB ++ rm.2 ++ rn.2⟩)
  else
    (⟨s.missing_frames_threshold, s.stability_frames, tracked0,
      s.object_history, s.missing_objects, s.new_objects, established, fc⟩,
     ⟨akeys s.missing_objects, akeys s.new_objects,
      s.missing_objects.map Prod.snd, s.new_objects.map Prod.snd, evB⟩)

/-- Iterate `BaselineMemory.update` over a sequence of frames, collecting
the per-frame outputs. -/
def bmRun : BaselineMemory → List (List TrackedObject) →
    BaselineMemory × List BMOutput
  | s, [] => (s, [])
  | s, f :: fs =>
    let r := BaselineMemory.update s f
    let rest := bmRun r.1 fs
    (rest.1, r.2 :: rest.2)

/-- A fixed concrete tracked-object snapshot used in the concrete runs. -/
def sampleObj : TrackedObject := ⟨1, ⟨0, 0, 2, 2⟩, 1, 0, 3, 0⟩

/-- C1 (code bug): with `stability_frames = 2` (warm-up over empty frames),
identifier 1 appears from frame 3 on and keeps appearing for 7 frames, yet
its `new_frames` counter stays at 1 forever, no confirmed-new event is
ever reported, and the bookkeeping is never evicted.  Cause: `update`
merges every observed id into `tracked_objects` in its first frame, so the
id is never again in `current − previous` and the increment/confirm branch
of `_update_new_objects` (lines 162-170) is unreachable — contradicting
the source's own comments ("increment count", "confirm it as new") and the
spec. -/
theorem new_frames_never_advance :
    ((bmRun (BaselineMemory.init 15 2)
        [[], [], [sampleObj], [sampleObj], [sampleObj], [sampleObj],
         [sampleObj], [sampleObj], [sampleObj]]).1.new_objects.map
        (fun p => (p.1, p.2.2)) = [(1, 1)]) ∧
    ((bmRun (BaselineMemory.init 15 2)
        [[], [], [sampleObj], [sampleObj], [sampleObj], [sampleObj],
         [sampleObj], [sampleObj], [sampleObj]]).2.map (fun out => out.new_ids)
      = [[], [], [1], [1], [1], [1], [1], [1], [1]]) ∧
    (∀ out ∈ (bmRun (BaselineMemory.init 15 2)
        [[], [], [sampleObj], [sampleObj], [sampleObj], [sampleObj],
         [sampleObj], [sampleObj], [sampleObj]]).2,
      BMEvent.newConfirmed 1 ∉ out.events) := by decide

/-- C3, counterexample: with `stability_frames = 1` the baseline is
established over an empty first frame; identifier 1 appears at frame 2
(entering the new bookkeeping) and disappears at frame 3 (entering the
missing bookkeeping while its new entry is never removed), so after that
update the identifier sits in both bookkeepings simultaneously. -/
theorem missing_and_new_bookkeeping_overlap :
    1 ∈ akeys (bmRun (BaselineMemory.init 15 1)
        [[], [sampleObj], []]).1.missing_objects ∧
    1 ∈ akeys (bmRun (BaselineMemory.init 15 1)
        [[], [sampleObj], []]).1.new_objects := by decide

/-- C7, counterexample: with `missing_object_frames = 1`, identifier 1 is
in the warm-up baseline and then absent; at the frame where its
missing_frames counter first equals the threshold (the entry is created at
count 1) no confirmed-missing event is reported — the report lives only on
the increment branch, so a threshold of 1 never fires. -/
theorem missing_threshold_one_never_reported :
    (bmRun (BaselineMemory.init 1 1) [[sampleObj], []]).2.map (fun out => out.events)
      = [[BMEvent.baselineEstablished 1], []] ∧
    (bmRun (BaselineMemory.init 1 1) [[sampleObj], []]).1.missing_objects.map
      (fun p => (p.1, p.2.2)) = [(1, 1)] := by decide

/-- C9, counterexample: constructing the tracker with `max_age = -1`,
`min_hits = -2`, `iou_threshold = 2` (outside [0,1]) and the baseline
memory with `missing_object_frames = -3`, `stability_frames = -4`
succeeds — no error is raised and the invalid values are stored verbatim,
refuting "fails at construction with a descriptive error". -/
theorem invalid_config_accepted :
    (DeepSORTTracker.init (-1) (-2) 2).max_age = -1 ∧
    (DeepSORTTracker.init (-1) (-2) 2).min_hits = -2 ∧
    (DeepSORTTracker.init (-1) (-2) 2).iou_threshold = 2 ∧
    (BaselineMemory.init (-3) (-4)).missing_frames_threshold = -3 ∧
    (BaselineMemory.init (-3) (-4)).stability_frames = -4 :=
  ⟨rfl, rfl, rfl, rfl, rfl⟩

/-- C9 as amended: neither constructor validates its configuration: both
always succeed, and every value — including negative thresholds and an
iou_threshold outside [0,1] — is stored exactly as given, neither rejected
nor clamped. -/
theorem config_stored_unvalidated (ma mh : Int) (thr : ℚ) (mof sf : Int) :
    (DeepSORTTracker.init ma mh thr).max_age = ma ∧
    (DeepSORTTracker.init ma mh thr).min_hits = mh ∧
    (DeepSORTTracker.init ma mh thr).iou_threshold = thr ∧
    (DeepSORTTracker.init ma mh thr).trackers = [] ∧
    (BaselineMemory.init mof sf).missing_frames_threshold = mof ∧
    (BaselineMemory.init mof sf).stability_frames = sf :=
  ⟨rfl, rfl, rfl, rfl, rfl, rfl⟩

/-! ### Association-list lemmas (dict semantics) -/

theorem alookup_append {α : Type} (l l' : List (Nat × α)) (k : Nat) :
    alookup (l ++ l') k =
      match alookup l k with
      | some v => some v
      | none => alookup l' k := by
  induction l with
  | nil => simp [alookup]
  | cons p l ih =>
    by_cases h : p.1 = k
    · simp [alookup, h]
    · simp [alookup, h, ih]

theorem alookup_aset_self {α : Type} (l : List (Nat × α)) (k : Nat) (v : α) :
    alookup (aset l k v) k = some v := by
  unfold aset
  split
  · next hs =>
    induction l with
    | nil => simp [alookup] at hs
    | cons p l ih =>
      by_cases h : p.1 = k
      · simp [alookup, h]
      · simp only [alookup, h, if_false, Option.isSome] at hs
        simp only [List.map_cons, if_neg h, alookup, h, if_false]
        exact ih hs
  · next hs =>
    rw [alookup_append]
    have : alookup l k = none := by
      cases h : alookup l k
      · rfl
      · rw [h] at hs; simp at hs
    rw [this]
    simp [alookup]

theorem alookup_mapset_ne {α : Type} (l : List (Nat × α)) (k k' : Nat) (v : α)
    (h : k' ≠ k) :
    alookup (l.map (fun p => if p.1 = k then (k, v) else p)) k' = alookup l k' := by
  induction l with
  | nil => rfl
  | cons p l ih =>
    simp only [List.map_cons]
    by_cases hp : p.1 = k
    · rw [if_pos hp]
      simp only [alookup]
      have h1 : ¬(k = k') := fun hh => h hh.symm
      have h2 : ¬(p.1 = k') := by rw [hp]; exact fun hh => h hh.symm
      rw [if_neg h1, if_neg h2]
      exact ih
    · rw [if_neg hp]
      simp only [alookup]
      by_cases hpk : p.1 = k'
      · rw [if_pos hpk, if_pos hpk]
      · rw [if_neg hpk, if_neg hpk]
        exact ih

theorem alookup_aset_ne {α : Type} (l : List (Nat × α)) (k k' : Nat) (v : α)
    (h : k' ≠ k) : alookup (aset l k v) k' = alookup l k' := by
  unfold aset
  split
  · exact alookup_mapset_ne l k k' v h
  · rw [alookup_append]
    cases hl : alookup l k'
    · simp [alookup, Ne.symm h]
    · simp

theorem alookup_aerase_self {α : Type} (l : List (Nat × α)) (k : Nat) :
    alookup (aerase l k) k = none := by
  induction l with
  | nil => rfl
  | cons p l ih =>
    unfold aerase at ih ⊢
    rw [List.filter_cons]
    by_cases h : p.1 = k
    · have hb : (p.1 != k) = false := by simp [h]
      rw [hb, if_neg (by simp)]
      exact ih
    · have hb : (p.1 != k) = true := by simp [h]
      rw [hb, if_pos rfl]
      simp only [alookup, h, if_false]
      exact ih

theorem alookup_aerase_ne {α : Type} (l : List (Nat × α)) (k k' : Nat)
    (h : k' ≠ k) : alookup (aerase l k) k' = alookup l k' := by
  induction l with
  | nil => rfl
  | cons p l ih =>
    unfold aerase at ih ⊢
    rw [List.filter_cons]
    by_cases hp : p.1 = k
    · have hb : (p.1 != k) = false := by simp [hp]
      have h2 : ¬(p.1 = k') := by rw [hp]; exact fun hh => h hh.symm
      rw [hb, if_neg (by simp)]
      rw [ih]
      simp [alookup, h2]
    · have hb : (p.1 != k) = true := by simp [hp]
      rw [hb]
      simp only [if_true, alookup]
      by_cases hpk : p.1 = k'
      · rw [if_pos hpk, if_pos hpk]
      · rw [if_neg hpk, if_neg hpk]
        exact ih

theorem mem_akeys {α : Type} (l : List (Nat × α)) (k : Nat) :
    k ∈ akeys l ↔ (alookup l k).isSome := by
  induction l with
  | nil => simp [akeys, alookup]
  | cons p l ih =>
    by_cases h : p.1 = k
    · simp [akeys, alookup, h]
    · simp only [akeys, List.map_cons, List.mem_cons, alookup, h, if_false]
      rw [← akeys]
      constructor
      · rintro (rfl | hm)
        · exact absurd rfl h
        · exact ih.mp hm
      · intro hs
        exact Or.inr (ih.mpr hs)

theorem mem_akeys_aset {α : Type} (l : List (Nat × α)) (k k' : Nat) (v : α) :
    k' ∈ akeys (aset l k v) ↔ k' = k ∨ k' ∈ akeys l := by
  by_cases h : k' = k
  · subst h
    simp [mem_akeys, alookup_aset_self]
  · rw [mem_akeys, alookup_aset_ne l k k' v h, ← mem_akeys]
    simp [h]

theorem alookup_aeraseFold {α : Type} (ids : List Nat) (l : List (Nat × α))
    (k : Nat) :
    alookup (ids.foldl aerase l) k = if k ∈ ids then none else alookup l k := by
  induction ids generalizing l with
  | nil => simp
  | cons a ids ih =>
    simp only [List.foldl_cons]
    rw [ih]
    by_cases h : k ∈ ids
    · simp [h]
    · by_cases hk : k = a
      · subst hk
        simp [h, alookup_aerase_self]
      · simp [h, hk, alookup_aerase_ne l a k hk]

theorem akeys_mapset {α : Type} (l : List (Nat × α)) (k : Nat) (v : α) :
    akeys (l.map (fun p => if p.1 = k then (k, v) else p)) = akeys l := by
  induction l with
  | nil => rfl
  | cons p l ih =>
    simp only [List.map_cons, akeys] at ih ⊢
    by_cases h : p.1 = k
    · rw [if_pos h]
      simp [ih, h]
    · rw [if_neg h]
      simp [ih]

theorem nodup_akeys_aset {α : Type} (l : List (Nat × α)) (k : Nat) (v : α)
    (h : (akeys l).Nodup) : (akeys (aset l k v)).Nodup := by
  unfold aset
  split
  · rw [akeys_mapset]
    exact h
  · next hs =>
    have hk : k ∉ akeys l := by
      rw [mem_akeys]
      intro hh
      exact hs hh
    simp only [akeys, List.map_append]
    rw [List.nodup_append]
    exact ⟨h, List.nodup_singleton k, by simpa [akeys] using fun hm => hk hm⟩

theorem lookup_asetFold_isSome {α : Type} (l : List (Nat × α)) :
    ∀ (acc : List (Nat × α)) (id : Nat),
    (alookup (l.foldl (fun acc p => aset acc p.1 p.2) acc) id).isSome ↔
      id ∈ akeys l ∨ (alookup acc id).isSome
  := by
  induction l with
  | nil => intro acc id; simp [akeys]
  | cons p l ih =>
    intro acc id
    simp only [List.foldl_cons]
    rw [ih]
    by_cases h : id = p.1
    · subst h
      simp [akeys, alookup_aset_self]
    · rw [alookup_aset_ne acc p.1 id p.2 h]
      simp only [akeys, List.map_cons, List.mem_cons]
      constructor
      · rintro (hm | hs)
        · exact Or.inl (Or.inr hm)
        · exact Or.inr hs
      · rintro ((hh | hm) | hs)
        · exact absurd hh h
        · exact Or.inl hm
        · exact Or.inr hs

theorem nodup_akeys_asetFold {α : Type} (l : List (Nat × α)) :
    ∀ (acc : List (Nat × α)), (akeys acc).Nodup →
      (akeys (l.foldl (fun acc p => aset acc p.1 p.2) acc)).Nodup := by
  induction l with
  | nil => intro acc h; exact h
  | cons p l ih =>
    intro acc h
    exact ih (aset acc p.1 p.2) (nodup_akeys_aset acc p.1 p.2 h)

theorem mergeFold_fst (current : List (Nat × TrackedObject)) (fc : Nat) :
    ∀ (t0 : List (Nat × TrackedObject)) (h0 : List (Nat × List HistoryEntry)),
    (current.foldl
      (fun acc p => (aset acc.1 p.1 p.2, histAppend acc.2 p.1 fc p.2))
      (t0, h0)).1 =
    current.foldl (fun acc p => aset acc p.1 p.2) t0 := by
  induction current with
  | nil => intro t0 h0; rfl
  | cons p l ih =>
    intro t0 h0
    simp only [List.foldl_cons]
    exact ih (aset t0 p.1 p.2) (histAppend h0 p.1 fc p.2)

theorem lookup_buildCurrent_isSome (frame : List TrackedObject) :
    ∀ (acc : List (Nat × TrackedObject)) (id : Nat),
    (alookup (frame.foldl (fun acc o => aset acc o.id o) acc) id).isSome ↔
      id ∈ frame.map TrackedObject.id ∨ (alookup acc id).isSome := by
  induction frame with
  | nil => intro acc id; simp
  | cons o frame ih =>
    intro acc id
    simp only [List.foldl_cons]
    rw [ih]
    by_cases h : id = o.id
    · subst h
      simp [alookup_aset_self]
    · rw [alookup_aset_ne acc o.id id o h]
      simp only [List.map_cons, List.mem_cons]
      constructor
      · rintro (hm | hs)
        · exact Or.inl (Or.inr hm)
        · exact Or.inr hs
      · rintro ((hh | hm) | hs)
        · exact absurd hh h
        · exact Or.inl hm
        · exact Or.inr hs

/-! ### Per-identifier behaviour of the missing-bookkeeping loop -/

theorem missingStep_lookup_ne (tracked : List (Nat × TrackedObject)) (thr : Int)
    (acc : List (Nat × TrackedObject × Nat) × List BMEvent) (a id : Nat)
    (h : id ≠ a) :
    alookup (missingStep tracked thr acc a).1 id = alookup acc.1 id := by
  unfold missingStep
  cases h1 : alookup acc.1 a with
  | some mo =>
    simp only []
    exact alookup_aset_ne acc.1 a id _ h
  | none =>
    cases h2 : alookup tracked a with
    | some od =>
      simp only []
      exact alookup_aset_ne acc.1 a id _ h
    | none => rfl

theorem missingStep_events_ne (tracked : List (Nat × TrackedObject)) (thr : Int)
    (acc : List (Nat × TrackedObject × Nat) × List BMEvent) (a id : Nat)
    (h : id ≠ a) :
    (BMEvent.missingConfirmed id ∈ (missingStep tracked thr acc a).2 ↔
      BMEvent.missingConfirmed id ∈ acc.2) := by
  unfold missingStep
  cases h1 : alookup acc.1 a with
  | some mo =>
    simp only []
    split
    · split
      · simp [h]
      · exact Iff.rfl
    · exact Iff.rfl
  | none =>
    cases h2 : alookup tracked a with
    | some od => exact Iff.rfl
    | none => exact Iff.rfl

theorem missingStep_lookup_self (tracked : List (Nat × TrackedObject)) (thr : Int)
    (acc : List (Nat × TrackedObject × Nat) × List BMEvent) (a : Nat) :
    alookup (missingStep tracked thr acc a).1 a =
      match alookup acc.1 a with
      | some mo => some (mo.1, mo.2 + 1)
      | none =>
        match alookup tracked a with
        | some od => some (od, 1)
        | none => none := by
  unfold missingStep
  cases h1 : alookup acc.1 a with
  | some mo =>
    simp only []
    exact alookup_aset_self acc.1 a _
  | none =>
    cases h2 : alookup tracked a with
    | some od =>
      simp only []
      exact alookup_aset_self acc.1 a _
    | none =>
      simp only []
      exact h1

theorem missingStep_events_self (tracked : List (Nat × TrackedObject)) (thr : Int)
    (acc : List (Nat × TrackedObject × Nat) × List BMEvent) (a : Nat) :
    (BMEvent.missingConfirmed a ∈ (missingStep tracked thr acc a).2 ↔
      (BMEvent.missingConfirmed a ∈ acc.2 ∨
        ∃ mo : TrackedObject × Nat, alookup acc.1 a = some mo ∧
          ((mo.2 + 1 : Nat) : Int) = thr)) := by
  unfold missingStep
  cases h1 : alookup acc.1 a with
  | some mo =>
    simp only []
    split
    · next hle =>
      split
      · next heq =>
        exact iff_of_true (List.mem_append_right _ (by simp))
          (Or.inr ⟨mo, rfl, heq⟩)
      · next hne =>
        constructor
        · exact Or.inl
        · rintro (hm | ⟨mo', hmo', hthr⟩)
          · exact hm
          · cases hmo'
            exact absurd hthr hne
    · next hlt =>
      constructor
      · exact Or.inl
      · rintro (hm | ⟨mo', hmo', hthr⟩)
        · exact hm
        · cases hmo'
          exact absurd (le_of_eq hthr.symm) hlt
  | none =>
    cases h2 : alookup tracked a with
    | some od =>
      simp only []
      constructor
      · exact Or.inl
      · rintro (hm | ⟨mo', hmo', -⟩)
        · exact hm
        · simp at hmo'
    | none =>
      simp only []
      constructor
      · exact Or.inl
      · rintro (hm | ⟨mo', hmo', -⟩)
        · exact hm
        · simp at hmo'


theorem missingFold_lookup_not_mem (tracked : List (Nat × TrackedObject))
    (thr : Int) (pm : List Nat) :
    ∀ (acc : List (Nat × TrackedObject × Nat) × List BMEvent) (id : Nat),
      id ∉ pm →
      alookup ((pm.foldl (missingStep tracked thr) acc).1) id = alookup acc.1 id := by
  induction pm with
  | nil => intro acc id _; rfl
  | cons a pm ih =>
    intro acc id hid
    have hne : id ≠ a := fun h => hid (h ▸ List.mem_cons_self a pm)
    have hnot : id ∉ pm := fun h => hid (List.mem_cons_of_mem a h)
    simp only [List.foldl_cons]
    rw [ih (missingStep tracked thr acc a) id hnot]
    exact missingStep_lookup_ne tracked thr acc a id hne

theorem missingFold_events_not_mem (tracked : List (Nat × TrackedObject))
    (thr : Int) (pm : List Nat) :
    ∀ (acc : List (Nat × TrackedObject × Nat) × List BMEvent) (id : Nat),
      id ∉ pm →
      (BMEvent.missingConfirmed id ∈ (pm.foldl (missingStep tracked thr) acc).2 ↔
        BMEvent.missingConfirmed id ∈ acc.2) := by
  induction pm with
  | nil => intro acc id _; exact Iff.rfl
  | cons a pm ih =>
    intro acc id hid
    have hne : id ≠ a := fun h => hid (h ▸ List.mem_cons_self a pm)
    have hnot : id ∉ pm := fun h => hid (List.mem_cons_of_mem a h)
    simp only [List.foldl_cons]
    rw [ih (missingStep tracked thr acc a) id hnot]
    exact missingStep_events_ne tracked thr acc a id hne

/-- Full characterisation of the first loop of `_update_missing_objects`
for a potentially-missing id: its counter increments (or the entry opens at
1 from the reference data), and a MISSING report is emitted exactly when
the incremented counter equals the threshold. -/
theorem missingFold_char (tracked : List (Nat × TrackedObject)) (thr : Int)
    (pm : List Nat) :
    ∀ (acc : List (Nat × TrackedObject × Nat) × List BMEvent) (id : Nat),
      pm.Nodup → id ∈ pm →
      (alookup ((pm.foldl (missingStep tracked thr) acc).1) id =
        (match alookup acc.1 id with
         | some mo => some (mo.1, mo.2 + 1)
         | none =>
           match alookup tracked id with
           | some od => some (od, 1)
           | none => none)) ∧
      (BMEvent.missingConfirmed id ∈ (pm.foldl (missingStep tracked thr) acc).2 ↔
        (BMEvent.missingConfirmed id ∈ acc.2 ∨
          ∃ mo : TrackedObject × Nat, alookup acc.1 id = some mo ∧
            ((mo.2 + 1 : Nat) : Int) = thr)) := by
  induction pm with
  | nil =>
    intro acc id _ hid
    exact absurd hid (List.not_mem_nil id)
  | cons a pm ih =>
    intro acc id hnd hid
    simp only [List.foldl_cons]
    rcases List.mem_cons.mp hid with rfl | hmem
    · have hnot : id ∉ pm := (List.nodup_cons.mp hnd).1
      rw [missingFold_lookup_not_mem tracked thr pm _ id hnot,
        missingStep_lookup_self]
      refine ⟨rfl, ?_⟩
      rw [missingFold_events_not_mem tracked thr pm _ id hnot]
      exact missingStep_events_self tracked thr acc id
    · have hne : id ≠ a := by
        rintro rfl
        exact (List.nodup_cons.mp hnd).1 hmem
      obtain ⟨ih1, ih2⟩ :=
        ih (missingStep tracked thr acc a) id (List.nodup_cons.mp hnd).2 hmem
      rw [ih1, missingStep_lookup_ne tracked thr acc a id hne]
      refine ⟨rfl, ?_⟩
      rw [ih2, missingStep_events_ne tracked thr acc a id hne,
        missingStep_lookup_ne tracked thr acc a id hne]

theorem lookup_aset_isSome {α : Type} (l : List (Nat × α)) (k : Nat) (v : α)
    (id : Nat) :
    (alookup (aset l k v) id).isSome ↔ id = k ∨ (alookup l id).isSome := by
  by_cases h : id = k
  · subst h
    simp [alookup_aset_self]
  · rw [alookup_aset_ne l k id v h]
    simp [h]

/-- One step of the new-bookkeeping loop only ever adds the scanned id as
a key, and only ever appends confirmed-new events. -/
theorem newStep_keys (current : List (Nat × TrackedObject)) (stab : Int)
    (acc : List (Nat × TrackedObject × Nat) × List BMEvent) (a id : Nat)
    (h : (alookup (newStep current stab acc a).1 id).isSome) :
    id = a ∨ (alookup acc.1 id).isSome := by
  unfold newStep at h
  cases h1 : alookup acc.1 a with
  | some no =>
    rw [h1] at h
    simp only [] at h
    exact (lookup_aset_isSome acc.1 a _ id).mp h
  | none =>
    rw [h1] at h
    cases h2 : alookup current a with
    | some od =>
      rw [h2] at h
      simp only [] at h
      exact (lookup_aset_isSome acc.1 a _ id).mp h
    | none =>
      rw [h2] at h
      exact Or.inr h

theorem newStep_events_shape (current : List (Nat × TrackedObject)) (stab : Int)
    (acc : List (Nat × TrackedObject × Nat) × List BMEvent) (a : Nat)
    (hacc : ∀ e ∈ acc.2, ∃ j, e = BMEvent.newConfirmed j) :
    ∀ e ∈ (newStep current stab acc a).2, ∃ j, e = BMEvent.newConfirmed j := by
  unfold newStep
  cases h1 : alookup acc.1 a with
  | some no =>
    simp only []
    split
    · split
      · intro e he
        rcases List.mem_append.mp he with hm | hm
        · exact hacc e hm
        · exact ⟨a, List.mem_singleton.mp hm⟩
      · exact hacc
    · exact hacc
  | none =>
    cases h2 : alookup current a with
    | some od => exact hacc
    | none => exact hacc

theorem newFold_keys (current : List (Nat × TrackedObject)) (stab : Int)
    (pn : List Nat) :
    ∀ (acc : List (Nat × TrackedObject × Nat) × List BMEvent) (id : Nat),
      (alookup ((pn.foldl (newStep current stab) acc).1) id).isSome →
      id ∈ pn ∨ (alookup acc.1 id).isSome := by
  induction pn with
  | nil => intro acc id h; exact Or.inr h
  | cons a pn ih =>
    intro acc id h
    simp only [List.foldl_cons] at h
    rcases ih (newStep current stab acc a) id h with hm | hs
    · exact Or.inl (List.mem_cons_of_mem a hm)
    · rcases newStep_keys current stab acc a id hs with rfl | hs'
      · exact Or.inl (List.mem_cons_self _ _)
      · exact Or.inr hs'

theorem newFold_events_shape (current : List (Nat × TrackedObject)) (stab : Int)
    (pn : List Nat) :
    ∀ (acc : List (Nat × TrackedObject × Nat) × List BMEvent),
      (∀ e ∈ acc.2, ∃ j, e = BMEvent.newConfirmed j) →
      ∀ e ∈ ((pn.foldl (newStep current stab) acc).2),
        ∃ j, e = BMEvent.newConfirmed j := by
  induction pn with
  | nil => intro acc hacc; exact hacc
  | cons a pn ih =>
    intro acc hacc
    simp only [List.foldl_cons]
    exact ih (newStep current stab acc a) (newStep_events_shape current stab acc a hacc)

/-- On an established baseline, one update takes the evaluation branch:
no re-establishment, reference set `tracked_objects` used as previous ids,
and the output assembled from the two bookkeeping passes and the merge. -/
theorem bm_update_established (s : BaselineMemory) (frame : List TrackedObject)
    (hest : s.is_baseline_established = true) :
    BaselineMemory.update s frame =
      (let fc := s.frame_count + 1
       let current := frame.foldl (fun acc o => aset acc o.id o) []
       let pm := (akeys s.tracked_objects).filter
         (fun id => !(alookup current id).isSome)
       let rm := update_missing_objects s.missing_objects s.tracked_objects
         s.missing_frames_threshold pm current
       let pn := (akeys current).filter
         (fun id => !(alookup s.tracked_objects id).isSome)
       let rn := update_new_objects s.new_objects current s.stability_frames pn
       let merged := current.foldl
         (fun acc p => (aset acc.1 p.1 p.2, histAppend acc.2 p.1 fc p.2))
         (s.tracked_objects, s.object_history)
       (⟨s.missing_frames_threshold, s.stability_frames, merged.1, merged.2,
         rm.1, rn.1, true, fc⟩,
        ⟨akeys rm.1, akeys rn.1, rm.1.map Prod.snd, rn.1.map Prod.snd,
         rm.2 ++ rn.2⟩)) := by
  unfold BaselineMemory.update
  rw [hest]
  simp

/-- For an id absent from the current frame, the reappearance pass of
`_update_missing_objects` does not touch its entry. -/
theorem update_missing_lookup_absent (missing : List (Nat × TrackedObject × Nat))
    (tracked : List (Nat × TrackedObject)) (thr : Int) (pm : List Nat)
    (current : List (Nat × TrackedObject)) (id : Nat)
    (hcur : alookup current id = none) :
    alookup (update_missing_objects missing tracked thr pm current).1 id =
      alookup (pm.foldl (missingStep tracked thr) (missing, [])).1 id := by
  unfold update_missing_objects
  dsimp only
  rw [alookup_aeraseFold]
  split
  · next hmem =>
    rw [List.mem_filter, hcur] at hmem
    simp at hmem
  · rfl

/-- The reappearance pass appends only `reappeared` events, so a MISSING
report is in the output of `_update_missing_objects` exactly when the
per-id loop emitted it. -/
theorem update_missing_events (missing : List (Nat × TrackedObject × Nat))
    (tracked : List (Nat × TrackedObject)) (thr : Int) (pm : List Nat)
    (current : List (Nat × TrackedObject)) (id : Nat) :
    (BMEvent.missingConfirmed id ∈
        (update_missing_objects missing tracked thr pm current).2 ↔
      BMEvent.missingConfirmed id ∈
        (pm.foldl (missingStep tracked thr) (missing, [])).2) := by
  unfold update_missing_objects
  dsimp only
  rw [List.mem_append]
  constructor
  · rintro (h | h)
    · exact h
    · obtain ⟨j, -, he⟩ := List.mem_map.mp h
      simp at he
  · exact Or.inl

/-- An id present in the current frame is wiped from the missing
bookkeeping by the reappearance pass (given it was not scanned as
potentially missing, which `update` guarantees by construction). -/
theorem update_missing_lookup_present (missing : List (Nat × TrackedObject × Nat))
    (tracked : List (Nat × TrackedObject)) (thr : Int) (pm : List Nat)
    (current : List (Nat × TrackedObject)) (id : Nat)
    (hcur : (alookup current id).isSome) :
    alookup (update_missing_objects missing tracked thr pm current).1 id = none := by
  unfold update_missing_objects
  dsimp only
  rw [alookup_aeraseFold]
  split
  · rfl
  · next hmem =>
    rw [List.mem_filter] at hmem
    push_neg at hmem
    cases hl : alookup (pm.foldl (missingStep tracked thr) (missing, [])).1 id with
    | none => rfl
    | some v =>
      have hin : id ∈ akeys (pm.foldl (missingStep tracked thr) (missing, [])).1 := by
        rw [mem_akeys, hl]
        rfl
      exact absurd hcur (by simpa using hmem hin)

/-- Workhorse for the absence path: with an established baseline and a
reference id absent from the frame, the missing counter advances by one
(or the entry opens at 1), and the MISSING report fires exactly when the
advanced counter equals the threshold.  The baseline flag, the reference
membership, the key-uniqueness of the reference and the thresholds are all
preserved. -/
theorem bm_update_absent (s : BaselineMemory) (frame : List TrackedObject)
    (id : Nat) (hest : s.is_baseline_established = true)
    (hnd : (akeys s.tracked_objects).Nodup)
    (htr : id ∈ akeys s.tracked_objects)
    (habs : ∀ o ∈ frame, o.id ≠ id) :
    (∀ mo : TrackedObject × Nat, alookup s.missing_objects id = some mo →
      alookup (BaselineMemory.update s frame).1.missing_objects id =
        some (mo.1, mo.2 + 1)) ∧
    (alookup s.missing_objects id = none →
      ∃ od, alookup (BaselineMemory.update s frame).1.missing_objects id =
        some (od, 1)) ∧
    (BMEvent.missingConfirmed id ∈ (BaselineMemory.update s frame).2.events ↔
      ∃ mo : TrackedObject × Nat, alookup s.missing_objects id = some mo ∧
        ((mo.2 + 1 : Nat) : Int) = s.missing_frames_threshold) := by
  rw [bm_update_established s frame hest]
  dsimp only
  set current := frame.foldl (fun acc o => aset acc o.id o) [] with hcur_def
  set pm := (akeys s.tracked_objects).filter
    (fun j => !(alookup current j).isSome) with hpm_def
  have hcur : alookup current id = none := by
    cases hc : alookup current id with
    | none => rfl
    | some o =>
      have hsome : (alookup current id).isSome := by rw [hc]; rfl
      rw [hcur_def] at hsome
      rcases (lookup_buildCurrent_isSome frame [] id).mp hsome with hm | hs
      · obtain ⟨o', ho', hido⟩ := List.mem_map.mp hm
        exact absurd hido (habs o' ho')
      · simp [alookup] at hs
  have hpmmem : id ∈ pm := by
    rw [hpm_def, List.mem_filter]
    refine ⟨htr, ?_⟩
    rw [hcur]
    rfl
  have hpmnd : pm.Nodup := hnd.filter _
  obtain ⟨hlk, hev⟩ := missingFold_char s.tracked_objects
    s.missing_frames_threshold pm (s.missing_objects, []) id hpmnd hpmmem
  have hlk' := update_missing_lookup_absent s.missing_objects s.tracked_objects
    s.missing_frames_threshold pm current id hcur
  refine ⟨?_, ?_, ?_⟩
  · intro mo hmo
    rw [hlk', hlk, hmo]
  · intro hnone
    rw [hlk', hlk, hnone]
    cases ht : alookup s.tracked_objects id with
    | none =>
      rw [mem_akeys, ht] at htr
      simp at htr
    | some od => exact ⟨od, rfl⟩
  · rw [List.mem_append]
    constructor
    · rintro (h | h)
      · rw [update_missing_events] at h
        rcases hev.mp h with hm | hm
        · simp at hm
        · exact hm
      · have hshape := newFold_events_shape current s.stability_frames
          ((akeys current).filter (fun j => !(alookup s.tracked_objects j).isSome))
          (s.new_objects, []) (by intro e he; simp at he)
        have h2 : BMEvent.missingConfirmed id ∈
            (((akeys current).filter
              (fun j => !(alookup s.tracked_objects j).isSome)).foldl
              (newStep current s.stability_frames) (s.new_objects, [])).2 := by
          unfold update_new_objects at h
          exact h
        obtain ⟨j, hj⟩ := hshape _ h2
        simp at hj
    · intro hx
      refine Or.inl ?_
      rw [update_missing_events]
      exact hev.mpr (Or.inr hx)

instance : Inhabited BMOutput := ⟨⟨[], [], [], [], []⟩⟩

theorem bm_est_preserved (s : BaselineMemory) (frame : List TrackedObject)
    (hest : s.is_baseline_established = true) :
    (BaselineMemory.update s frame).1.is_baseline_established = true := by
  rw [bm_update_established s frame hest]

theorem bm_thr_preserved (s : BaselineMemory) (frame : List TrackedObject)
    (hest : s.is_baseline_established = true) :
    (BaselineMemory.update s frame).1.missing_frames_threshold =
      s.missing_frames_threshold := by
  rw [bm_update_established s frame hest]

theorem bm_tracked_after (s : BaselineMemory) (frame : List TrackedObject)
    (hest : s.is_baseline_established = true) :
    (BaselineMemory.update s frame).1.tracked_objects =
      (frame.foldl (fun acc o => aset acc o.id o) []).foldl
        (fun acc p => aset acc p.1 p.2) s.tracked_objects := by
  rw [bm_update_established s frame hest]
  dsimp only
  rw [mergeFold_fst]

theorem bm_nd_preserved (s : BaselineMemory) (frame : List TrackedObject)
    (hest : s.is_baseline_established = true)
    (hnd : (akeys s.tracked_objects).Nodup) :
    (akeys (BaselineMemory.update s frame).1.tracked_objects).Nodup := by
  rw [bm_tracked_after s frame hest]
  exact nodup_akeys_asetFold _ s.tracked_objects hnd

theorem bm_tracked_mono (s : BaselineMemory) (frame : List TrackedObject)
    (id : Nat) (hest : s.is_baseline_established = true)
    (htr : id ∈ akeys s.tracked_objects) :
    id ∈ akeys (BaselineMemory.update s frame).1.tracked_objects := by
  rw [bm_tracked_after s frame hest, mem_akeys, lookup_asetFold_isSome]
  exact Or.inr ((mem_akeys s.tracked_objects id).mp htr)

/-- Absence run, auxiliary: starting from an established state whose
missing entry for `id` holds count `c`, over frames that never contain
`id`, the entry counts up `c+1, c+2, …` and the MISSING report of frame
`j` (0-based) fires exactly when `c + j + 1` equals the threshold. -/
theorem missing_run_aux (frames : List (List TrackedObject)) :
    ∀ (s : BaselineMemory) (id : Nat) (o : TrackedObject) (c : Nat),
      s.is_baseline_established = true →
      (akeys s.tracked_objects).Nodup →
      id ∈ akeys s.tracked_objects →
      alookup s.missing_objects id = some (o, c) →
      (∀ f ∈ frames, ∀ o' ∈ f, o'.id ≠ id) →
      ∀ j, j < frames.length →
        (BMEvent.missingConfirmed id ∈ ((bmRun s frames).2.getD j default).events ↔
          ((c : Int) + (j : Int) + 1 = s.missing_frames_threshold)) := by
  induction frames with
  | nil =>
    intro s id o c _ _ _ _ _ j hj
    exact absurd hj (by simp)
  | cons f fs ih =>
    intro s id o c hest hnd htr hm habs j hj
    have habsf : ∀ o' ∈ f, o'.id ≠ id := habs f (List.mem_cons_self f fs)
    obtain ⟨hinc, -, hev⟩ := bm_update_absent s f id hest hnd htr habsf
    cases j with
    | zero =>
      simp only [bmRun, List.getD_cons_zero]
      rw [hev]
      constructor
      · rintro ⟨mo, hmo, hthr⟩
        rw [hm] at hmo
        cases hmo
        push_cast
        push_cast at hthr
        linarith
      · intro hthr
        refine ⟨(o, c), hm, ?_⟩
        push_cast
        push_cast at hthr
        linarith
    | succ j' =>
      simp only [bmRun, List.getD_cons_succ]
      have hthr' := bm_thr_preserved s f hest
      have := ih (BaselineMemory.update s f).1 id o (c + 1)
        (bm_est_preserved s f hest) (bm_nd_preserved s f hest hnd)
        (bm_tracked_mono s f id hest htr) (hinc (o, c) hm)
        (fun g hg => habs g (List.mem_cons_of_mem f hg)) j'
        (by simpa using Nat.lt_of_succ_lt_succ hj)
      rw [this, hthr']
      constructor
      · intro h
        push_cast
        push_cast at h
        linarith
      · intro h
        push_cast
        push_cast at h
        linarith

/-- C7 as amended: with `missing_object_frames ≥ 2`, for a reference
identifier with no missing bookkeeping yet, over an uninterrupted absence
the confirmed-missing report of the j-th absent frame (0-based) fires
exactly when `j + 1` equals the threshold — so exactly once per episode,
at the frame where the counter first equals `missing_object_frames`.
(For a threshold of 1 the code never reports; see the counterexample.) -/
theorem missing_confirmed_exactly_once (s : BaselineMemory) (id : Nat)
    (frames : List (List TrackedObject))
    (hest : s.is_baseline_established = true)
    (hnd : (akeys s.tracked_objects).Nodup)
    (htr : id ∈ akeys s.tracked_objects)
    (hm0 : alookup s.missing_objects id = none)
    (habs : ∀ f ∈ frames, ∀ o ∈ f, o.id ≠ id)
    (hthr : 2 ≤ s.missing_frames_threshold) :
    ∀ j, j < frames.length →
      (BMEvent.missingConfirmed id ∈ ((bmRun s frames).2.getD j default).events ↔
        ((j : Int) + 1 = s.missing_frames_threshold)) := by
  intro j hj
  cases frames with
  | nil => exact absurd hj (by simp)
  | cons f fs =>
    have habsf : ∀ o' ∈ f, o'.id ≠ id := habs f (List.mem_cons_self f fs)
    obtain ⟨-, hopen, hev⟩ := bm_update_absent s f id hest hnd htr habsf
    obtain ⟨od, hod⟩ := hopen hm0
    cases j with
    | zero =>
      simp only [bmRun, List.getD_cons_zero]
      rw [hev]
      constructor
      · rintro ⟨mo, hmo, -⟩
        rw [hm0] at hmo
        exact absurd hmo (by simp)
      · intro h
        exfalso
        push_cast at h
        omega
    | succ j' =>
      simp only [bmRun, List.getD_cons_succ]
      have hthr' := bm_thr_preserved s f hest
      have haux := missing_run_aux fs (BaselineMemory.update s f).1 id od 1
        (bm_est_preserved s f hest) (bm_nd_preserved s f hest hnd)
        (bm_tracked_mono s f id hest htr) hod
        (fun g hg => habs g (List.mem_cons_of_mem f hg)) j'
        (by simpa using Nat.lt_of_succ_lt_succ hj)
      rw [haux, hthr']
      push_cast
      constructor <;> intro h <;> linarith

/-- C8 (confirmed): an identifier bookkept as missing that is present in
the current frame's input has its missing bookkeeping discarded during
that update and never appears in that frame's missing-identifier output. -/
theorem reappeared_id_discarded (s : BaselineMemory)
    (frame : List TrackedObject) (id : Nat)
    (hest : s.is_baseline_established = true)
    (_hbook : id ∈ akeys s.missing_objects)
    (hpres : ∃ o ∈ frame, o.id = id) :
    alookup (BaselineMemory.update s frame).1.missing_objects id = none ∧
    id ∉ (BaselineMemory.update s frame).2.missing_ids := by
  rw [bm_update_established s frame hest]
  dsimp only
  have hcur : (alookup (frame.foldl (fun acc o => aset acc o.id o) []) id).isSome := by
    rw [lookup_buildCurrent_isSome]
    obtain ⟨o, ho, hid⟩ := hpres
    exact Or.inl (List.mem_map.mpr ⟨o, ho, hid⟩)
  have h1 := update_missing_lookup_present s.missing_objects s.tracked_objects
    s.missing_frames_threshold
    ((akeys s.tracked_objects).filter
      (fun j => !(alookup (frame.foldl (fun acc o => aset acc o.id o) []) j).isSome))
    (frame.foldl (fun acc o => aset acc o.id o) []) id hcur
  refine ⟨h1, ?_⟩
  rw [mem_akeys, h1]
  simp

/-- C10 (confirmed): after establishment every referenced identifier stays
referenced forever, every identifier present in a frame is merged into the
reference set by that frame's update, and a referenced identifier absent
from the frame (and not yet bookkept) enters the missing bookkeeping at
count 1 — absence evaluation applies to every identifier ever observed
after warm-up, not only warm-up baseline members. -/
theorem reference_set_monotone (s : BaselineMemory)
    (frame : List TrackedObject) (id : Nat)
    (hest : s.is_baseline_established = true)
    (hnd : (akeys s.tracked_objects).Nodup) :
    (∀ j ∈ akeys s.tracked_objects,
       j ∈ akeys (BaselineMemory.update s frame).1.tracked_objects) ∧
    (∀ o ∈ frame, o.id ∈ akeys (BaselineMemory.update s frame).1.tracked_objects) ∧
    (id ∈ akeys s.tracked_objects → (∀ o ∈ frame, o.id ≠ id) →
      alookup s.missing_objects id = none →
      ∃ od, alookup (BaselineMemory.update s frame).1.missing_objects id =
        some (od, 1)) := by
  refine ⟨?_, ?_, ?_⟩
  · intro j hj
    exact bm_tracked_mono s frame j hest hj
  · intro o ho
    rw [bm_tracked_after s frame hest, mem_akeys, lookup_asetFold_isSome]
    left
    rw [mem_akeys, lookup_buildCurrent_isSome]
    exact Or.inl (List.mem_map.mpr ⟨o, ho, rfl⟩)
  · intro htr habs hm0
    obtain ⟨-, hopen, -⟩ := bm_update_absent s frame id hest hnd htr habs
    exact hopen hm0

/-- C3 as amended: the claimed missing/new disjointness fails for an
identifier that first appears after warm-up and then disappears (see the
counterexample), but it does hold for baseline identifiers: a set B of
referenced ids disjoint from the new bookkeeping stays referenced and
disjoint from the new bookkeeping across any update — so a baseline
identifier never sits in both bookkeepings simultaneously. -/
theorem baseline_ids_never_in_new (s : BaselineMemory)
    (frame : List TrackedObject) (B : List Nat)
    (hest : s.is_baseline_established = true)
    (hB : ∀ b ∈ B, b ∈ akeys s.tracked_objects)
    (hBnew : ∀ b ∈ B, b ∉ akeys s.new_objects) :
    (∀ b ∈ B, b ∈ akeys (BaselineMemory.update s frame).1.tracked_objects) ∧
    (∀ b ∈ B, b ∉ akeys (BaselineMemory.update s frame).1.new_objects) ∧
    (∀ b ∈ B, ¬(b ∈ akeys (BaselineMemory.update s frame).1.missing_objects ∧
                b ∈ akeys (BaselineMemory.update s frame).1.new_objects)) := by
  have hnew : ∀ b ∈ B, b ∉ akeys (BaselineMemory.update s frame).1.new_objects := by
    intro b hb hmem
    rw [bm_update_established s frame hest] at hmem
    dsimp only at hmem
    rw [mem_akeys] at hmem
    unfold update_new_objects at hmem
    dsimp only at hmem
    rw [alookup_aeraseFold] at hmem
    revert hmem
    split
    · intro hmem
      simp at hmem
    · intro hmem
      rcases newFold_keys _ s.stability_frames _ _ b hmem with hpn | hs
      · rw [List.mem_filter] at hpn
        have := hB b hb
        rw [mem_akeys] at this
        rw [this] at hpn
        simp at hpn
      · exact hBnew b hb ((mem_akeys s.new_objects b).mpr hs)
  refine ⟨?_, hnew, ?_⟩
  · intro b hb
    exact bm_tracked_mono s frame b hest (hB b hb)
  · rintro b hb ⟨-, h2⟩
    exact hnew b hb h2

/-- Witness for `missing_confirmed_exactly_once`: established memory with
threshold 2, reference {1}, two absent frames — the report fires exactly
at the second absent frame. -/
theorem missing_confirmed_exactly_once_witness :
    (2 ≤ (⟨2, 1, [(1, sampleObj)], [], [], [], true, 5⟩ :
        BaselineMemory).missing_frames_threshold) ∧
    (∀ j, j < ([[], []] : List (List TrackedObject)).length →
      (BMEvent.missingConfirmed 1 ∈
          ((bmRun (⟨2, 1, [(1, sampleObj)], [], [], [], true, 5⟩ : BaselineMemory)
            [[], []]).2.getD j default).events ↔
        ((j : Int) + 1 = (⟨2, 1, [(1, sampleObj)], [], [], [], true, 5⟩ :
          BaselineMemory).missing_frames_threshold))) :=
  ⟨by decide,
   missing_confirmed_exactly_once
     ⟨2, 1, [(1, sampleObj)], [], [], [], true, 5⟩ 1 [[], []]
     rfl (by decide) (by decide) rfl (by decide) (by decide)⟩

/-- Witness for `reappeared_id_discarded`: id 1 is bookkept missing with
count 3 and present in the frame — bookkeeping discarded, absent from the
missing output. -/
theorem reappeared_id_discarded_witness :
    (1 ∈ akeys (⟨15, 1, [(1, sampleObj)], [], [(1, (sampleObj, 3))], [],
        true, 9⟩ : BaselineMemory).missing_objects) ∧
    alookup (BaselineMemory.update
      (⟨15, 1, [(1, sampleObj)], [], [(1, (sampleObj, 3))], [], true, 9⟩ :
        BaselineMemory) [sampleObj]).1.missing_objects 1 = none ∧
    1 ∉ (BaselineMemory.update
      (⟨15, 1, [(1, sampleObj)], [], [(1, (sampleObj, 3))], [], true, 9⟩ :
        BaselineMemory) [sampleObj]).2.missing_ids :=
  ⟨by decide,
   (reappeared_id_discarded
     ⟨15, 1, [(1, sampleObj)], [], [(1, (sampleObj, 3))], [], true, 9⟩
     [sampleObj] 1 rfl (by decide) (by decide)).1,
   (reappeared_id_discarded
     ⟨15, 1, [(1, sampleObj)], [], [(1, (sampleObj, 3))], [], true, 9⟩
     [sampleObj] 1 rfl (by decide) (by decide)).2⟩

/-- A second concrete snapshot with identifier 2 for the witnesses. -/
def sampleObj2 : TrackedObject := ⟨2, ⟨5, 5, 9, 9⟩, 1, 0, 4, 0⟩

/-- Witness for `reference_set_monotone`: reference {1}, frame
containing only id 2 — both ids referenced afterwards, and id 1 opens a
missing entry at count 1. -/
theorem reference_set_monotone_witness :
    ((⟨15, 1, [(1, sampleObj)], [], [], [], true, 7⟩ :
        BaselineMemory).is_baseline_established = true) ∧
    ((∀ j ∈ akeys (⟨15, 1, [(1, sampleObj)], [], [], [], true, 7⟩ :
        BaselineMemory).tracked_objects,
       j ∈ akeys (BaselineMemory.update
         (⟨15, 1, [(1, sampleObj)], [], [], [], true, 7⟩ : BaselineMemory)
         [sampleObj2]).1.tracked_objects) ∧
     (∀ o ∈ [sampleObj2], o.id ∈ akeys (BaselineMemory.update
         (⟨15, 1, [(1, sampleObj)], [], [], [], true, 7⟩ : BaselineMemory)
         [sampleObj2]).1.tracked_objects) ∧
     (1 ∈ akeys (⟨15, 1, [(1, sampleObj)], [], [], [], true, 7⟩ :
          BaselineMemory).tracked_objects →
       (∀ o ∈ [sampleObj2], o.id ≠ 1) →
       alookup (⟨15, 1, [(1, sampleObj)], [], [], [], true, 7⟩ :
          BaselineMemory).missing_objects 1 = none →
       ∃ od, alookup (BaselineMemory.update
         (⟨15, 1, [(1, sampleObj)], [], [], [], true, 7⟩ : BaselineMemory)
         [sampleObj2]).1.missing_objects 1 = some (od, 1))) :=
  ⟨rfl,
   reference_set_monotone
     ⟨15, 1, [(1, sampleObj)], [], [], [], true, 7⟩ [sampleObj2] 1
     rfl (by decide)⟩

/-- Witness for `baseline_ids_never_in_new`: baseline {1}, a frame with
the post-warm-up id 2 — id 1 stays out of the new bookkeeping. -/
theorem baseline_ids_never_in_new_witness :
    (∀ b ∈ [1], b ∈ akeys (⟨15, 1, [(1, sampleObj)], [], [], [], true, 9⟩ :
        BaselineMemory).tracked_objects) ∧
    ((∀ b ∈ [1], b ∈ akeys (BaselineMemory.update
        (⟨15, 1, [(1, sampleObj)], [], [], [], true, 9⟩ : BaselineMemory)
        [sampleObj, sampleObj2]).1.tracked_objects) ∧
     (∀ b ∈ [1], b ∉ akeys (BaselineMemory.update
        (⟨15, 1, [(1, sampleObj)], [], [], [], true, 9⟩ : BaselineMemory)
        [sampleObj, sampleObj2]).1.new_objects) ∧
     (∀ b ∈ [1], ¬(b ∈ akeys (BaselineMemory.update
        (⟨15, 1, [(1, sampleObj)], [], [], [], true, 9⟩ : BaselineMemory)
        [sampleObj, sampleObj2]).1.missing_objects ∧
       b ∈ akeys (BaselineMemory.update
        (⟨15, 1, [(1, sampleObj)], [], [], [], true, 9⟩ : BaselineMemory)
        [sampleObj, sampleObj2]).1.new_objects))) :=
  ⟨by decide,
   baseline_ids_never_in_new
     ⟨15, 1, [(1, sampleObj)], [], [], [], true, 9⟩ [sampleObj, sampleObj2] [1]
     rfl (by decide) (by decide)⟩

/-! ### The stationary-box scenario (spec §8): box (10,10,50,50) -/

def box0 : Box := ⟨10, 10, 50, 50⟩

def det0 : Detection := ⟨box0, 0, 1⟩

/-- Kalman mean for a stationary box (10,10,50,50): center (30,30),
extents (40,40), zero velocities. -/
def stationaryX : Fin 8 → ℚ := ![30, 30, 40, 40, 0, 0, 0, 0]

/-- With zero velocities the constant-velocity transition fixes the mean. -/
theorem mulVec_stationary : transitionMatrix.mulVec stationaryX = stationaryX := by
  unfold transitionMatrix stationaryX
  simp only [Matrix.cons_mulVec, Matrix.empty_mulVec, Matrix.cons_dotProduct_cons,
    Matrix.dotProduct_empty]
  norm_num

/-- The stationary box measures exactly as the predicted mean. -/
theorem meas_stationary :
    bbox_to_xywh box0 = measurementMatrix.mulVec stationaryX := by
  unfold measurementMatrix stationaryX bbox_to_xywh box0
  simp only [Matrix.cons_mulVec, Matrix.empty_mulVec, Matrix.cons_dotProduct_cons,
    Matrix.dotProduct_empty]
  norm_num

/-- Correcting the stationary mean with its own measurement leaves the mean
unchanged (zero innovation), whatever the covariance. -/
theorem correct_stationary (P : Matrix (Fin 8) (Fin 8) ℚ) :
    kalmanCorrect ⟨stationaryX, P⟩ (bbox_to_xywh box0) =
      ⟨stationaryX, corrCov P⟩ := by
  unfold kalmanCorrect
  have hz : bbox_to_xywh box0 -
      measurementMatrix.mulVec (⟨stationaryX, P⟩ : KalmanState).x = 0 := by
    rw [meas_stationary]
    exact sub_self _
  rw [hz, Matrix.mulVec_zero, add_zero]

/-- The stationary mean reads back as the original box. -/
theorem bbox_stationary : xywh_to_bbox 30 30 40 40 = box0 := by
  norm_num [xywh_to_bbox, box0]

/-- A track initialised on the stationary box, in explicit form. -/
theorem init_track_stationary :
    KalmanTracker.init box0 1 0 1 5 =
      ⟨1, 0, 1, 5, 0, 0, ⟨stationaryX, initErrorCov⟩, [box0]⟩ := by
  unfold KalmanTracker.init
  dsimp only
  have h0 : bbox_to_xywh box0 0 = 30 := by
    norm_num [bbox_to_xywh, box0]
  have h1 : bbox_to_xywh box0 1 = 30 := by
    norm_num [bbox_to_xywh, box0]
  have h2 : bbox_to_xywh box0 2 = 40 := by
    norm_num [bbox_to_xywh, box0, Matrix.cons_val_two, Matrix.vecTail,
      Matrix.vecHead, Matrix.cons_val_succ, Matrix.cons_val_zero, Function.comp]
  have h3 : bbox_to_xywh box0 3 = 40 := by
    norm_num [bbox_to_xywh, box0, Matrix.cons_val_three, Matrix.vecTail,
      Matrix.vecHead, Matrix.cons_val_succ, Matrix.cons_val_zero, Function.comp]
  rw [h0, h1, h2, h3]
  rfl

theorem iou_box0_self : calculate_iou box0 box0 = some 1 := by
  norm_num [calculate_iou, box0]

/-- Predicting a freshly-corrected (`time_since_update = 0`) stationary
track advances only the covariance. -/
theorem predict_stationary_hit (tid cls : Nat) (cf : ℚ) (ma : Int) (a : Nat)
    (P : Matrix (Fin 8) (Fin 8) ℚ) (hist : List Box) :
    KalmanTracker.predict ⟨tid, cls, cf, ma, a, 0, ⟨stationaryX, P⟩, hist⟩ =
      ⟨tid, cls, cf, ma, a, 0, ⟨stationaryX, predCov P⟩, hist⟩ := by
  simp [KalmanTracker.predict, kalmanPredict, mulVec_stationary]

/-- Correcting a stationary track with the stationary detection: counters
and payload update, the mean is unchanged. -/
theorem updateWith_stationary (tid cls : Nat) (cf : ℚ) (ma : Int) (a u : Nat)
    (P : Matrix (Fin 8) (Fin 8) ℚ) (hist : List Box) :
    KalmanTracker.updateWith ⟨tid, cls, cf, ma, a, u, ⟨stationaryX, P⟩, hist⟩
        det0 =
      ⟨tid, det0.class_id, det0.confidence, ma, a + 1, 0,
        ⟨stationaryX, corrCov P⟩,
        if 5 < (hist ++ [det0.bbox]).length then (hist ++ [det0.bbox]).tail
        else hist ++ [det0.bbox]⟩ := by
  simp [KalmanTracker.updateWith, correct_stationary, det0]

/-- A stationary track's snapshot reads back the original box. -/
theorem get_state_stationary (tid cls : Nat) (cf : ℚ) (ma : Int) (a u : Nat)
    (P : Matrix (Fin 8) (Fin 8) ℚ) (hist : List Box) :
    KalmanTracker.get_state ⟨tid, cls, cf, ma, a, u, ⟨stationaryX, P⟩, hist⟩ =
      ⟨tid, box0, cf, cls, a, u⟩ := by
  unfold KalmanTracker.get_state
  dsimp only
  rw [show stationaryX 0 = 30 from rfl, show stationaryX 1 = 30 from rfl,
    show stationaryX 2 = 40 from rfl, show stationaryX 3 = 40 from rfl,
    bbox_stationary]

theorem step_match (cls : Nat) (cf : ℚ) (a nid fc : Nat)
    (P : Matrix (Fin 8) (Fin 8) ℚ) (hist : List Box) :
    DeepSORTTracker.update
      ⟨5, 3, 3 / 10, [⟨1, cls, cf, 5, a, 0, ⟨stationaryX, P⟩, hist⟩], nid, fc⟩
      [det0] =
    some (⟨5, 3, 3 / 10,
      [⟨1, det0.class_id, det0.confidence, 5, a + 1, 0,
        ⟨stationaryX, corrCov (predCov P)⟩,
        if 5 < (hist ++ [det0.bbox]).length then (hist ++ [det0.bbox]).tail
        else hist ++ [det0.bbox]⟩], nid, fc + 1⟩,
      if (3 : Int) ≤ ((a + 1 : Nat) : Int) then
        [⟨1, box0, det0.confidence, det0.class_id, a + 1, 0⟩] else []) := by
  have hiou : calculate_iou det0.bbox
      (KalmanTracker.get_state
        ⟨1, cls, cf, 5, a, 0, ⟨stationaryX, predCov P⟩, hist⟩).bbox = some 1 := by
    rw [get_state_stationary]
    exact iou_box0_self
  unfold DeepSORTTracker.update
  simp only [List.map_cons, List.map_nil, predict_stationary_hit]
  rw [show assign_detections_to_trackers [det0]
      (List.filter (fun trk => decide ((trk.time_since_update : Int) ≤ 5))
        [⟨1, cls, cf, 5, a, 0, ⟨stationaryX, predCov P⟩, hist⟩]) (3 / 10) =
      some ([(0, 0)], [], []) from ?_]
  · simp only [Option.bind_eq_bind, Option.some_bind, List.foldl_cons, List.foldl_nil]
    norm_num [List.filter, List.modify, updateWith_stationary, get_state_stationary]
    by_cases h : (3 : Int) ≤ (a : Int) + 1
    · simp [h, get_state_stationary]
    · simp [h]
  · norm_num [assign_detections_to_trackers, List.filter, optionMap, hiou,
      assignLoop, bestMatch, bestStep, List.range_succ]

theorem predict_stationary (tid cls : Nat) (cf : ℚ) (ma : Int) (a u : Nat)
    (P : Matrix (Fin 8) (Fin 8) ℚ) (hist : List Box) :
    KalmanTracker.predict ⟨tid, cls, cf, ma, a, u, ⟨stationaryX, P⟩, hist⟩ =
      ⟨tid, cls, cf, ma, (if 0 < u then a + 1 else a),
       (if 0 < u then u + 1 else u), ⟨stationaryX, predCov P⟩, hist⟩ := by
  unfold KalmanTracker.predict kalmanPredict
  split <;> simp_all [mulVec_stationary]

theorem step_empty_u0 (cls : Nat) (cf : ℚ) (a nid fc : Nat)
    (P : Matrix (Fin 8) (Fin 8) ℚ) (hist : List Box) :
    DeepSORTTracker.update
      ⟨5, 3, 3 / 10, [⟨1, cls, cf, 5, a, 0, ⟨stationaryX, P⟩, hist⟩], nid, fc⟩
      [] =
    some (⟨5, 3, 3 / 10,
      [⟨1, cls, cf, 5, a + 1, 1, ⟨stationaryX, predCov P⟩, hist⟩], nid, fc + 1⟩,
      if (3 : Int) ≤ ((a + 1 : Nat) : Int) then
        [⟨1, box0, cf, cls, a + 1, 1⟩] else []) := by
  unfold DeepSORTTracker.update
  simp only [List.map_cons, List.map_nil, predict_stationary]
  norm_num [assign_detections_to_trackers, List.filter, List.modify,
    List.range_succ, get_state_stationary]
  by_cases h : 3 ≤ a + 1
  · have h' : (3 : Int) ≤ (a : Int) + 1 := by exact_mod_cast h
    simp [h, h', get_state_stationary]
  · have h' : ¬((3 : Int) ≤ (a : Int) + 1) := by exact_mod_cast h
    simp [h, h']

theorem step_empty_upos (cls : Nat) (cf : ℚ) (a u nid fc : Nat)
    (P : Matrix (Fin 8) (Fin 8) ℚ) (hist : List Box) (hu : 0 < u)
    (hkeep : ((u + 2 : Nat) : Int) ≤ 5) :
    DeepSORTTracker.update
      ⟨5, 3, 3 / 10, [⟨1, cls, cf, 5, a, u, ⟨stationaryX, P⟩, hist⟩], nid, fc⟩
      [] =
    some (⟨5, 3, 3 / 10,
      [⟨1, cls, cf, 5, a + 2, u + 2, ⟨stationaryX, predCov P⟩, hist⟩], nid,
      fc + 1⟩, []) := by
  unfold DeepSORTTracker.update
  simp only [List.map_cons, List.map_nil, predict_stationary, if_pos hu]
  have h1 : ((u : Int) + 1) ≤ 5 := by push_cast at hkeep; linarith
  have h2 : ((u : Int) + 2) ≤ 5 := by push_cast at hkeep; linarith
  have h3 : ¬(u + 1 + 1 ≤ 1) := by omega
  have h4 : u + 1 + 1 ≤ 5 := by
    have : u + 2 ≤ 5 := by exact_mod_cast hkeep
    omega
  norm_num [assign_detections_to_trackers, List.filter, List.modify,
    List.range_succ, List.range_zero, get_state_stationary, h1, h2, h3, h4]

theorem step_empty_drop (cls : Nat) (cf : ℚ) (a u nid fc : Nat)
    (P : Matrix (Fin 8) (Fin 8) ℚ) (hist : List Box) (hu : 0 < u)
    (hdrop : ¬ ((u + 1 : Nat) : Int) ≤ 5) :
    DeepSORTTracker.update
      ⟨5, 3, 3 / 10, [⟨1, cls, cf, 5, a, u, ⟨stationaryX, P⟩, hist⟩], nid, fc⟩
      [] =
    some (⟨5, 3, 3 / 10, [], nid, fc + 1⟩, []) := by
  unfold DeepSORTTracker.update
  simp only [List.map_cons, List.map_nil, predict_stationary, if_pos hu]
  push_cast at hdrop
  norm_num [assign_detections_to_trackers, List.filter, hdrop]

theorem step_empty_nil (ma mh : Int) (thr : ℚ) (nid fc : Nat) :
    DeepSORTTracker.update ⟨ma, mh, thr, [], nid, fc⟩ [] =
      some (⟨ma, mh, thr, [], nid, fc + 1⟩, []) := rfl

/-- Iterate `DeepSORTTracker.update` over a sequence of frames, collecting
the per-frame confirmed outputs. -/
def dsRun : DeepSORTTracker → List (List Detection) →
    Option (DeepSORTTracker × List (List TrackedObject))
  | s, [] => some (s, [])
  | s, f :: fs => do
    let r ← DeepSORTTracker.update s f
    let rest ← dsRun r.1 fs
    pure (rest.1, r.2 :: rest.2)

theorem run_f1 :
    DeepSORTTracker.update (DeepSORTTracker.init 5 3 (3 / 10)) [det0] =
      some (⟨5, 3, 3 / 10,
        [⟨1, 0, 1, 5, 0, 0, ⟨stationaryX, initErrorCov⟩, [box0]⟩], 2, 1⟩, []) := by
  have h : DeepSORTTracker.update (DeepSORTTracker.init 5 3 (3 / 10)) [det0] =
      some (⟨5, 3, 3 / 10, [KalmanTracker.init box0 1 0 1 5], 2, 1⟩, []) := rfl
  rw [h, init_track_stationary]

theorem run_f2 :
    DeepSORTTracker.update
      ⟨5, 3, 3 / 10,
        [⟨1, 0, 1, 5, 0, 0, ⟨stationaryX, initErrorCov⟩, [box0]⟩], 2, 1⟩ [det0] =
      some (⟨5, 3, 3 / 10,
        [⟨1, 0, 1, 5, 1, 0, ⟨stationaryX, corrCov (predCov initErrorCov)⟩,
          [box0, box0]⟩], 2, 2⟩, []) := by
  simpa [det0] using step_match 0 1 0 2 1 initErrorCov [box0]

theorem run_f3 :
    DeepSORTTracker.update
      ⟨5, 3, 3 / 10,
        [⟨1, 0, 1, 5, 1, 0, ⟨stationaryX, corrCov (predCov initErrorCov)⟩,
          [box0, box0]⟩], 2, 2⟩ [det0] =
      some (⟨5, 3, 3 / 10,
        [⟨1, 0, 1, 5, 2, 0,
          ⟨stationaryX, corrCov (predCov (corrCov (predCov initErrorCov)))⟩,
          [box0, box0, box0]⟩], 2, 3⟩, []) := by
  simpa [det0] using step_match 0 1 1 2 2 (corrCov (predCov initErrorCov)) [box0, box0]

theorem run_f4 :
    DeepSORTTracker.update
      ⟨5, 3, 3 / 10,
        [⟨1, 0, 1, 5, 2, 0,
          ⟨stationaryX, corrCov (predCov (corrCov (predCov initErrorCov)))⟩,
          [box0, box0, box0]⟩], 2, 3⟩ [] =
      some (⟨5, 3, 3 / 10,
        [⟨1, 0, 1, 5, 3, 1,
          ⟨stationaryX, predCov (corrCov (predCov (corrCov (predCov initErrorCov))))⟩,
          [box0, box0, box0]⟩], 2, 4⟩, [⟨1, box0, 1, 0, 3, 1⟩]) := by
  simpa using step_empty_u0 0 1 2 2 3
    (corrCov (predCov (corrCov (predCov initErrorCov)))) [box0, box0, box0]

theorem run_f5 :
    DeepSORTTracker.update
      ⟨5, 3, 3 / 10,
        [⟨1, 0, 1, 5, 3, 1,
          ⟨stationaryX, predCov (corrCov (predCov (corrCov (predCov initErrorCov))))⟩,
          [box0, box0, box0]⟩], 2, 4⟩ [] =
      some (⟨5, 3, 3 / 10,
        [⟨1, 0, 1, 5, 5, 3,
          ⟨stationaryX,
            predCov (predCov (corrCov (predCov (corrCov (predCov initErrorCov)))))⟩,
          [box0, box0, box0]⟩], 2, 5⟩, []) := by
  simpa using step_empty_upos 0 1 3 1 2 4
    (predCov (corrCov (predCov (corrCov (predCov initErrorCov)))))
    [box0, box0, box0] (by omega) (by norm_num)

theorem run_f6 :
    DeepSORTTracker.update
      ⟨5, 3, 3 / 10,
        [⟨1, 0, 1, 5, 5, 3,
          ⟨stationaryX,
            predCov (predCov (corrCov (predCov (corrCov (predCov initErrorCov)))))⟩,
          [box0, box0, box0]⟩], 2, 5⟩ [] =
      some (⟨5, 3, 3 / 10,
        [⟨1, 0, 1, 5, 7, 5,
          ⟨stationaryX,
            predCov (predCov (predCov (corrCov (predCov (corrCov (predCov initErrorCov))))))⟩,
          [box0, box0, box0]⟩], 2, 6⟩, []) := by
  simpa using step_empty_upos 0 1 5 3 2 5
    (predCov (predCov (corrCov (predCov (corrCov (predCov initErrorCov))))))
    [box0, box0, box0] (by omega) (by norm_num)

theorem run_f7 :
    DeepSORTTracker.update
      ⟨5, 3, 3 / 10,
        [⟨1, 0, 1, 5, 7, 5,
          ⟨stationaryX,
            predCov (predCov (predCov (corrCov (predCov (corrCov (predCov initErrorCov))))))⟩,
          [box0, box0, box0]⟩], 2, 6⟩ [] =
      some (⟨5, 3, 3 / 10, [], 2, 7⟩, []) := by
  simpa using step_empty_drop 0 1 7 5 2 6
    (predCov (predCov (predCov (corrCov (predCov (corrCov (predCov initErrorCov)))))))
    [box0, box0, box0] (by omega) (by norm_num)

/-- C6, counterexample: with min_hits = 3, iou_threshold = 3/10,
max_age = 5, feeding the stationary box (10,10,50,50) for 3 consecutive
frames produces NO confirmed track at frame 3 (nor earlier): the track's
age is only 2 then, below min_hits, so the claimed "single confirmed track
in the output starting at frame 3" is false. -/
theorem stationary_no_confirmed_track_at_frame3 :
    (dsRun (DeepSORTTracker.init 5 3 (3 / 10)) [[det0], [det0], [det0]]).map
      (fun p => p.2) = some [[], [], []] := by
  simp [dsRun, run_f1, run_f2, run_f3]

/-- C6 as amended: in the spec's scenario (3 stationary-box frames, then
6 empty frames), no confirmed output appears during the 3 detection
frames; the single confirmed snapshot — identifier 1 — appears exactly
once, at frame 4; the track (still identifier 1, aged by two per empty
frame once coasting) is purged from the registry at frame 7, so the registry is empty by
frame 9 as claimed. -/
theorem stationary_scenario_run :
    (dsRun (DeepSORTTracker.init 5 3 (3 / 10))
        [[det0], [det0], [det0], [], [], [], [], [], []]).map
      (fun p => (p.1.trackers.map
        (fun t => (t.track_id, t.age, t.time_since_update)), p.2)) =
      some ([], [[], [], [], [⟨1, box0, 1, 0, 3, 1⟩], [], [], [], [], []]) ∧
    (dsRun (DeepSORTTracker.init 5 3 (3 / 10))
        [[det0], [det0], [det0], [], [], []]).map
      (fun p => p.1.trackers.map
        (fun t => (t.track_id, t.age, t.time_since_update))) =
      some [(1, 7, 5)] ∧
    (dsRun (DeepSORTTracker.init 5 3 (3 / 10))
        [[det0], [det0], [det0], [], [], [], []]).map
      (fun p => p.1.trackers.map
        (fun t => (t.track_id, t.age, t.time_since_update))) =
      some [] := by
  refine ⟨?_, ?_, ?_⟩ <;>
    simp [dsRun, run_f1, run_f2, run_f3, run_f4, run_f5, run_f6, run_f7,
      step_empty_nil]


theorem foldl_modify_map_succ {α : Type} (g : α → α) (r : List Nat) :
    ∀ (b : α) (l : List α),
      ((r.map Nat.succ).foldl (fun acc t => acc.modify g t) (b :: l)) =
        b :: r.foldl (fun acc t => acc.modify g t) l := by
  induction r with
  | nil => intro b l; rfl
  | cons a r ih =>
    intro b l
    simp only [List.map_cons, List.foldl_cons]
    rw [show (b :: l).modify g (Nat.succ a) = b :: l.modify g a from rfl]
    exact ih b (l.modify g a)

/-- Applying `List.modify` once at every index of a list is `List.map`:
the source's unmatched-tracker loop bumps each active tracker exactly
once. -/
theorem foldl_modify_range {α : Type} (g : α → α) :
    ∀ (l : List α),
      ((List.range l.length).foldl (fun acc t => acc.modify g t) l) = l.map g := by
  intro l
  induction l with
  | nil => rfl
  | cons a l ih =>
    rw [show (a :: l).length = l.length + 1 from rfl, List.range_succ_eq_map]
    simp only [List.foldl_cons]
    rw [show (a :: l).modify g 0 = g a :: l from rfl]
    rw [foldl_modify_map_succ g (List.range l.length) (g a) l, ih]
    rfl

theorem predict_counters (t : KalmanTracker) :
    (KalmanTracker.predict t).track_id = t.track_id ∧
    (KalmanTracker.predict t).age =
      (if 0 < t.time_since_update then t.age + 1 else t.age) ∧
    (KalmanTracker.predict t).time_since_update =
      (if 0 < t.time_since_update then t.time_since_update + 1
       else t.time_since_update) := by
  unfold KalmanTracker.predict
  split <;> simp_all

/-- C4, counterexample: with max_age 5, min_hits 3: a track created at
frame 1 and unmatched at frames 2 and 3 gains +1 to each counter over
frame 2's update (its time_since_update was 0, so `predict` does not
increment) but +2 over frame 3's update — `predict` increments both
counters because time_since_update > 0, and the unmatched-track step
increments them again — refuting "increase by exactly 1 over the whole
update call". -/
theorem unmatched_track_double_increment :
    (dsRun (DeepSORTTracker.init 5 3 (3 / 10)) [[det0], []]).map
      (fun p => p.1.trackers.map
        (fun t => (t.track_id, t.age, t.time_since_update))) =
      some [(1, 1, 1)] ∧
    (dsRun (DeepSORTTracker.init 5 3 (3 / 10)) [[det0], [], []]).map
      (fun p => p.1.trackers.map
        (fun t => (t.track_id, t.age, t.time_since_update))) =
      some [(1, 3, 3)] := by
  decide

/-- C4 as amended: on a frame with no detections, `update` succeeds and the
surviving tracker list is the predict → max_age-filter → unmatched-bump →
max_age-filter pipeline; per track: a track with `time_since_update = 0` at
entry has both `age` and `time_since_update` exactly 1 larger afterwards
(it survives when `1 ≤ max_age`), while a track with `time_since_update > 0`
at entry has both counters exactly 2 larger (`predict` increments once and
the unmatched-track step increments again), surviving when
`time_since_update + 2 ≤ max_age` — not the claimed uniform +1. -/
theorem update_empty_detections (s : DeepSORTTracker) :
    ∃ s' out, DeepSORTTracker.update s [] = some (s', out) ∧
      s'.next_id = s.next_id ∧ s'.frame_count = s.frame_count + 1 ∧
      s'.trackers = (((s.trackers.map KalmanTracker.predict).filter
          (fun trk => decide ((trk.time_since_update : Int) ≤ s.max_age))).map
          (fun trk =>
            { trk with
              age := trk.age + 1
              time_since_update := trk.time_since_update + 1 })).filter
        (fun trk => decide ((trk.time_since_update : Int) ≤ s.max_age)) ∧
      ∀ t ∈ s.trackers,
        (t.time_since_update = 0 → (1 : Int) ≤ s.max_age →
          ∃ t' ∈ s'.trackers, t'.track_id = t.track_id ∧
            t'.age = t.age + 1 ∧ t'.time_since_update = 1) ∧
        (0 < t.time_since_update →
          ((t.time_since_update + 2 : Nat) : Int) ≤ s.max_age →
          ∃ t' ∈ s'.trackers, t'.track_id = t.track_id ∧
            t'.age = t.age + 2 ∧ t'.time_since_update = t.time_since_update + 2) := by
  have hpipe : DeepSORTTracker.update s [] = some
      (⟨s.max_age, s.min_hits, s.iou_threshold,
        (((s.trackers.map KalmanTracker.predict).filter
            (fun trk => decide ((trk.time_since_update : Int) ≤ s.max_age))).map
            (fun trk =>
              { trk with
                age := trk.age + 1
                time_since_update := trk.time_since_update + 1 })).filter
          (fun trk => decide ((trk.time_since_update : Int) ≤ s.max_age)),
        s.next_id, s.frame_count + 1⟩,
       ((((s.trackers.map KalmanTracker.predict).filter
            (fun trk => decide ((trk.time_since_update : Int) ≤ s.max_age))).map
            (fun trk =>
              { trk with
                age := trk.age + 1
                time_since_update := trk.time_since_update + 1 })).filter
          (fun trk => decide ((trk.time_since_update : Int) ≤ s.max_age))).filter
            (fun trk => decide (s.min_hits ≤ (trk.age : Int)) &&
              decide (trk.time_since_update ≤ 1)) |>.map KalmanTracker.get_state) := by
    unfold DeepSORTTracker.update
    simp only [assign_detections_to_trackers, List.isEmpty_nil, Bool.or_true,
      if_true, List.range_zero, List.length_nil, Option.some_bind,
      List.foldl_nil, Option.bind_eq_bind]
    rw [foldl_modify_range]
    rfl
  refine ⟨_, _, hpipe, rfl, rfl, rfl, ?_⟩
  intro t ht
  constructor
  · intro h0 hma
    obtain ⟨hid, hage, htsu⟩ := predict_counters t
    rw [h0] at hage htsu
    simp only [if_neg (by omega : ¬(0 < 0))] at hage htsu
    refine ⟨{ KalmanTracker.predict t with
        age := (KalmanTracker.predict t).age + 1
        time_since_update := (KalmanTracker.predict t).time_since_update + 1 },
      ?_, ?_, ?_, ?_⟩
    · apply List.mem_filter.mpr
      constructor
      · apply List.mem_map.mpr
        refine ⟨KalmanTracker.predict t, ?_, rfl⟩
        apply List.mem_filter.mpr
        refine ⟨List.mem_map.mpr ⟨t, ht, rfl⟩, ?_⟩
        rw [htsu]
        simp only [Nat.cast_zero, decide_eq_true_eq]
        omega
      · simp only [htsu]
        simp only [Nat.cast_one, decide_eq_true_eq]
        omega
    · simpa using hid
    · simp [hage]
    · simp [htsu, h0]
  · intro h0 hma
    obtain ⟨hid, hage, htsu⟩ := predict_counters t
    simp only [if_pos h0] at hage htsu
    have hma1 : ((t.time_since_update + 1 : Nat) : Int) ≤ s.max_age := by
      push_cast at hma ⊢
      linarith
    refine ⟨{ KalmanTracker.predict t with
        age := (KalmanTracker.predict t).age + 1
        time_since_update := (KalmanTracker.predict t).time_since_update + 1 },
      ?_, ?_, ?_, ?_⟩
    · apply List.mem_filter.mpr
      constructor
      · apply List.mem_map.mpr
        refine ⟨KalmanTracker.predict t, ?_, rfl⟩
        apply List.mem_filter.mpr
        refine ⟨List.mem_map.mpr ⟨t, ht, rfl⟩, ?_⟩
        rw [htsu]
        simpa using hma1
      · simp only [htsu]
        have : ((t.time_since_update + 1 + 1 : Nat) : Int) ≤ s.max_age := by
          push_cast at hma ⊢
          linarith
        simpa using this
    · simpa using hid
    · simp only [hage]
    · simp only [htsu]

theorem update_empty_detections_witness :
    ∃ s' out,
      DeepSORTTracker.update
        ⟨5, 3, 3 / 10,
          [⟨1, 0, 1, 5, 3, 0, ⟨stationaryX, initErrorCov⟩, [box0]⟩,
           ⟨2, 0, 1, 5, 4, 2, ⟨stationaryX, initErrorCov⟩, [box0]⟩], 9, 4⟩ [] =
        some (s', out) ∧
      s'.next_id = 9 ∧ s'.frame_count = 4 + 1 ∧
      (∃ t' ∈ s'.trackers, t'.track_id = 1 ∧ t'.age = 3 + 1 ∧
        t'.time_since_update = 1) ∧
      (∃ t' ∈ s'.trackers, t'.track_id = 2 ∧ t'.age = 4 + 2 ∧
        t'.time_since_update = 2 + 2) := by
  obtain ⟨s', out, h, hn, hf, -, hmem⟩ := update_empty_detections
    ⟨5, 3, 3 / 10,
      [⟨1, 0, 1, 5, 3, 0, ⟨stationaryX, initErrorCov⟩, [box0]⟩,
       ⟨2, 0, 1, 5, 4, 2, ⟨stationaryX, initErrorCov⟩, [box0]⟩], 9, 4⟩
  have h1 := (hmem ⟨1, 0, 1, 5, 3, 0, ⟨stationaryX, initErrorCov⟩, [box0]⟩
    (by simp)).1 rfl (by norm_num)
  have h2 := (hmem ⟨2, 0, 1, 5, 4, 2, ⟨stationaryX, initErrorCov⟩, [box0]⟩
    (by simp)).2 (by norm_num) (by norm_num)
  exact ⟨s', out, h, hn, hf, h1, h2⟩
